import Mathlib

/-!
Verification of the data lifecycle management subsystem of CanaryProtocol:
retention-based archival (`src/core/data_archival.py`), backup integrity
verification (`src/core/backup_verification.py`), safety-gated restore
(`src/core/classes/data_restore.py`) and the two schema migration variants
(`src/core/classes/database_migrations.py`, `src/core/database_migrations.py`).

The Python modules are shallowly embedded: SQLite rows, tables and files
become inductive data, stateful operations become explicit state-passing
functions, and fallible steps return `Option` or carry explicit
success/failure injection flags for the environment (file copies, tar
extraction, SQL execution).
-/

namespace Canary

/-- A SQL value as stored in a row: `none` models SQL NULL, `some s` a
(textual rendering of a) non-null value.  The archival module serialises
rows through `json.dump(..., default=str)`, so a textual value domain is
faithful. -/
abbrev Value := Option String

/-- The non-id columns of a row, as an association list from column name to
value, mirroring the `dict(row)` produced by `sqlite3.Row`. -/
abbrev Fields := List (String × Value)

/-- Lookup of a column in a row dict, mirroring Python `record.get(col)`:
an absent key yields `None` (here `none`). -/
def lookupField (c : String) (fs : Fields) : Value :=
  match fs.find? (fun p => p.1 = c) with
  | some p => p.2
  | none => none

/-- Strict lexicographic comparison of strings by their character
sequences (Python string `<`, SQLite BINARY collation on these ASCII
strings; identical to Lean's `String` order, which is defined as `List.lt`
on `String.data`). -/
def pyStrLt (a b : String) : Bool := decide (a.data < b.data)

/-- Splitting of a character list at a separator character, mirroring
Python `str.split(sep)` for a one-character separator (and SQL statement
splitting on `;`): `"a;b"` gives `["a", "b"]`, the empty string gives
`[""]`. -/
def splitCharList (sep : Char) : List Char → List (List Char)
  | [] => [[]]
  | c :: cs =>
    if c = sep then [] :: splitCharList sep cs
    else
      match splitCharList sep cs with
      | [] => [[c]]
      | r :: rs => (c :: r) :: rs

/-- Python `str.split(sep)` over a one-character separator; operates on the
character data of the string (semantically `String.splitOn`, but
kernel-reducible). -/
def pySplit (sep : Char) (s : String) : List String :=
  (splitCharList sep s.data).map (fun cs => String.mk cs)

/-- Python `str.strip()` / Lean `String.trim` on the character data:
leading and trailing whitespace removed. -/
def strTrim (s : String) : String :=
  String.mk (((s.data.dropWhile Char.isWhitespace).reverse.dropWhile
    Char.isWhitespace).reverse)

/-- Numeric parse of a character list: `some n` when non-empty and all
digits. -/
def natOfDigits (cs : List Char) : Option Nat :=
  if cs.isEmpty then none
  else if cs.all (fun c => c.isDigit) then
    some (cs.foldl (fun n c => n * 10 + (c.toNat - 48)) 0)
  else none

/-- Python `str.startswith(pre)` on the character data (semantically
`String.startsWith`, but kernel-reducible). -/
def strStarts (s pre : String) : Bool :=
  pre.data.isPrefixOf s.data

/-- Stable insertion of `x` into a list sorted ascending by the string key
`key`: `x` is placed before the first element with a key not smaller than
its own, matching the stability of Python `sorted` and of SQL `ORDER BY`
over a stable scan. -/
def insertOn (key : α → String) (x : α) : List α → List α
  | [] => [x]
  | y :: ys => if pyStrLt (key y) (key x) then y :: insertOn key x ys else x :: y :: ys

/-- Stable ascending sort by a string key (insertion sort), modelling both
`ORDER BY {date_column}` and Python `sorted(pending, key=...)`. -/
def sortOn (key : α → String) : List α → List α
  | [] => []
  | x :: xs => insertOn key x (sortOn key xs)

/-!
## The transactional database helper

`src/core/utils.py` defines

    def safe_db_operation(db_path, operation_func, *args, **kwargs):
        try:
            conn = sqlite3.connect(db_path)
            cursor = conn.cursor()
            result = operation_func(cursor, *args, **kwargs)
            conn.commit()
            return result
        except sqlite3.Error: ... return None
        except Exception: ... return None
        finally: ... conn.close()

so the callback is always invoked with the cursor as first positional
argument, and any extra keyword arguments are forwarded to it.  The
callbacks handed to it from `data_archival.py` and `backup_verification.py`
are defined with an empty parameter list (`def get_candidates():`,
`def delete_archived():`, `def restore_records():`, `def get_schema():`,
`def check_sample():`) and the call sites additionally pass `default=...`;
invoking such a callback as `operation_func(cursor, default=...)` raises
`TypeError`, which the bare `except Exception` swallows, so the helper
returns `None` without ever running the callback body.  The embedding keeps
both the calling convention and the callback bodies: a `PyCallback` records
whether the Python function accepts the cursor argument, together with the
semantics of its body.
-/

/-- A Python callback handed to `safe_db_operation`.  `takesCursor` is a
callback declared as `def f(cursor):` (the helper can invoke it);
`takesNoArgs` is a callback declared as `def f():` closing over its own
connection (the helper's call `f(cursor, **kwargs)` raises `TypeError`).
In both cases `run` is the semantics of the callback body: it transforms
the database state and produces a result, or fails (`none`) on a database
error, in which case the body's uncommitted work is discarded. -/
inductive PyCallback (σ : Type u) (α : Type v) where
  | takesCursor (run : σ → Option (σ × α))
  | takesNoArgs (run : σ → Option (σ × α))

/-- Embedding of `safe_db_operation` from `src/core/utils.py`: a
cursor-accepting callback is executed (state committed on success, left
unchanged when the body errors); a zero-argument callback raises
`TypeError` at the call `operation_func(cursor, ...)` before its body
runs, so the state is unchanged and the helper returns `None`. -/
def safeDbOperation (cb : PyCallback σ α) (s : σ) : σ × Option α :=
  match cb with
  | .takesCursor run =>
    match run s with
    | some (s₂, a) => (s₂, some a)
    | none => (s, none)
  | .takesNoArgs _ => (s, none)

/-- Modelled from the spec: `functions.utils.safe_db_operation`, the
"generic transactional-execute helper (open/execute/commit/close with
error translation)" consumed by `classes/data_restore.py` and
`classes/database_migrations.py`, is absent from `src/` (only
`core/functions/__init__.py` re-exports it and the tests import it).  Per
the spec it executes the cursor-style callback in one transaction: on
success the state transition commits and the result is returned, on a
database error everything rolls back (state unchanged) and `None` is
returned. -/
def functionsSafeDbOperation (run : σ → Option (σ × α)) (s : σ) : σ × Option α :=
  match run s with
  | some (s₂, a) => (s₂, some a)
  | none => (s, none)

/-!
## Data archival (`src/core/data_archival.py`)

A live table row carries the integer primary key `id` (every archived
table in the module's retention map has an `INTEGER PRIMARY KEY
AUTOINCREMENT` column named `id`) and its remaining columns as a dict.
-/

/-- A row of an archivable table: the `id` primary key plus the non-id
columns. -/
structure Row where
  id : Nat
  fields : Fields
deriving DecidableEq, Repr

/-- A live table as seen by the archival manager: its name, its non-id
column names in schema order (`PRAGMA table_info` minus `id`), the non-id
columns carrying a SQLite `UNIQUE` constraint (the source of
`sqlite3.IntegrityError` on re-insert), and its rows. -/
structure ArchTable where
  name : String
  columns : List String
  uniqueCols : List String
  rows : List Row
deriving DecidableEq, Repr

/-- The decompressed content of a `<table>_<timestamp>.json.gz` archive
file, as written by `archive_table_data`: table name, record count,
retention policy and the archived row dicts verbatim. -/
structure ArchiveFile where
  table : String
  recordCount : Nat
  retentionDays : Nat
  data : List Row
deriving DecidableEq, Repr

/-- The state touched by the archival manager: the live table and the
archive files present in `data/archives`. -/
structure ArchState where
  table : ArchTable
  archives : List ArchiveFile
deriving DecidableEq, Repr

/-- The condition `{date_column} < ?` of the candidate query: a row
qualifies when its date column holds a non-null value textually below the
cutoff (SQL comparison with NULL selects nothing). -/
def isCandidate (dateCol cutoff : String) (r : Row) : Bool :=
  match lookupField dateCol r.fields with
  | some d => pyStrLt d cutoff
  | none => false

/-- Sort key of the candidate query's `ORDER BY {date_column}` (candidates
always have a non-null date value). -/
def dateKey (dateCol : String) (r : Row) : String :=
  (lookupField dateCol r.fields).getD ""

/-- Body of the `get_candidates` callback in `get_archival_candidates`:
`SELECT * FROM {table} WHERE {date_column} < ? ORDER BY {date_column}`. -/
def getCandidatesBody (dateCol cutoff : String) (t : ArchTable) : List Row :=
  sortOn (dateKey dateCol) (t.rows.filter (isCandidate dateCol cutoff))

/-- Embedding of `DataArchivalManager.get_archival_candidates`: the
`get_candidates` callback is declared with an empty parameter list and the
call site passes `default=[]`, so `safe_db_operation` raises `TypeError`
invoking it and the method returns `None` (here `none`); the callback body
itself is `getCandidatesBody`. -/
def getArchivalCandidates (dateCol cutoff : String) (t : ArchTable) :
    Option (List Row) :=
  (safeDbOperation
    (.takesNoArgs (fun t₂ => some (t₂, getCandidatesBody dateCol cutoff t₂))) t).2

/-- Body of the `delete_archived` callback: `DELETE FROM {table} WHERE id
IN (...)` over the candidate ids, returning `cursor.rowcount` (the number
of rows deleted). -/
def deleteArchivedBody (ids : List Nat) (t : ArchTable) : ArchTable × Nat :=
  let kept := t.rows.filter (fun r => !(ids.contains r.id))
  ({ t with rows := kept }, t.rows.length - kept.length)

/-- Result dict of `archive_table_data`: `archived_count`,
`archive_file` (the produced archive, `none` for the Python `None`) and
whether the `except` branch added an `error` entry. -/
structure ArchResult where
  archivedCount : Option Nat
  archiveFile : Option ArchiveFile
  hasError : Bool
deriving DecidableEq, Repr

/-- Embedding of `DataArchivalManager.archive_table_data` as wired in
`src/`: candidates come back as `None` (zero-argument callback), which is
falsy, so the method always takes the "No data to archive" branch and
returns `archived_count = 0, archive_file = None` with the state
untouched.  `writeOk` injects the success of the `gzip` archive write and
`retention` is the table's retention policy; both sit on the dead branch
here but are exercised by the intended-semantics variant below. -/
def archiveTableData (dateCol cutoff : String) (retention : Nat)
    (writeOk : Bool) (st : ArchState) : ArchState × ArchResult :=
  match getArchivalCandidates dateCol cutoff st.table with
  | none => (st, ⟨some 0, none, false⟩)
  | some [] => (st, ⟨some 0, none, false⟩)
  | some candidates =>
    if writeOk then
      let archive : ArchiveFile :=
        ⟨st.table.name, candidates.length, retention, candidates⟩
      let ids := candidates.map (·.id)
      let (t₂, deleted) :=
        (safeDbOperation
          (.takesNoArgs (fun t => some (deleteArchivedBody ids t))) st.table)
      ({ table := t₂, archives := st.archives ++ [archive] },
        ⟨deleted, some archive, false⟩)
    else
      (st, ⟨some 0, none, true⟩)

/-- Modelled from the spec: the intended transactional helper semantics
for the zero-argument callbacks of `data_archival.py` (the repository's
`core.classes.data_archival` variant and its `functions.utils` helper are
absent from `src/`; the spec describes `archiveTable` as computing the
candidates, writing them all to the compressed snapshot, and only then
deleting them by primary key).  Identical to `archiveTableData` except
that the callbacks are executed. -/
def archiveTableDataIntended (dateCol cutoff : String) (retention : Nat)
    (writeOk : Bool) (st : ArchState) : ArchState × ArchResult :=
  match getCandidatesBody dateCol cutoff st.table with
  | [] => (st, ⟨some 0, none, false⟩)
  | candidates =>
    if writeOk then
      let archive : ArchiveFile :=
        ⟨st.table.name, candidates.length, retention, candidates⟩
      let ids := candidates.map (·.id)
      let (t₂, deleted) := deleteArchivedBody ids st.table
      ({ table := t₂, archives := st.archives ++ [archive] },
        ⟨some deleted, some archive, false⟩)
    else
      (st, ⟨some 0, none, true⟩)

/-- SQLite rowid assignment for an `INSERT` that omits the `INTEGER
PRIMARY KEY` column: one greater than the largest id in use (1 on an empty
table). -/
def nextId (t : ArchTable) : Nat :=
  (t.rows.map Row.id).foldr max 0 + 1

/-- The `sqlite3.IntegrityError` condition on re-insert: some `UNIQUE`
column of the table holds the same non-null value in an existing row
(SQL NULLs never collide under UNIQUE). -/
def insertConflicts (t : ArchTable) (fs : Fields) : Bool :=
  t.uniqueCols.any (fun u =>
    match lookupField u fs with
    | some v => t.rows.any (fun r => lookupField u r.fields = some v)
    | none => false)

/-- One iteration of the `restore_records` loop: build the value list
`[record.get(col) for col in columns]` over the table's non-id columns,
skip on `IntegrityError`, otherwise insert with a fresh id. -/
def restoreOne (t : ArchTable) (record : Row) : ArchTable × Bool :=
  let fs : Fields := t.columns.map (fun c => (c, lookupField c record.fields))
  if insertConflicts t fs then (t, false)
  else ({ t with rows := t.rows ++ [⟨nextId t, fs⟩] }, true)

/-- Body of the `restore_records` callback of `restore_from_archive`:
run the archived records through `restoreOne` in order, counting the
successful inserts (`restored_count`). -/
def restoreRecordsBody (records : List Row) (t : ArchTable) : ArchTable × Nat :=
  match records with
  | [] => (t, 0)
  | record :: rest =>
    let (t₂, ok) := restoreOne t record
    let (t₃, n) := restoreRecordsBody rest t₂
    (t₃, (if ok then 1 else 0) + n)

/-- Conflict-freedom of a record batch against a table: no UNIQUE-column
value of a record (as re-inserted over the table's columns) is already
present in the table's rows or in a different record of the batch.  This
is the state `restore_records` runs in during the archival round trip:
the records are rows previously deleted from a table that satisfied its
UNIQUE constraints. -/
def noConflicts (t : ArchTable) (records : List Row) : Prop :=
  ∀ u ∈ t.uniqueCols, ∀ r ∈ records, ∀ v,
    lookupField u (t.columns.map (fun c => (c, lookupField c r.fields))) = some v →
    (∀ row ∈ t.rows, lookupField u row.fields ≠ some v) ∧
    (∀ r₂ ∈ records, r₂ ≠ r →
      lookupField u (t.columns.map (fun c => (c, lookupField c r₂.fields))) ≠ some v)

/-- Result dict of `restore_from_archive`. -/
structure RestoreFromArchiveResult where
  success : Bool
  restoredCount : Option Nat
  totalRecords : Nat
deriving DecidableEq, Repr

/-- Embedding of `DataArchivalManager.restore_from_archive` as wired in
`src/`: for a present `.json.gz` archive the `restore_records` callback is
zero-argument with `default=0`, so `safe_db_operation` returns `None`,
`restored_count` is `None`, the table is untouched, and the method still
reports `success: True`.  `none` for the archive models a missing or
unsupported file (`success: False`). -/
def restoreFromArchive (archive : Option ArchiveFile) (st : ArchState) :
    ArchState × RestoreFromArchiveResult :=
  match archive with
  | none => (st, ⟨false, none, 0⟩)
  | some a =>
    let (t₂, res) :=
      safeDbOperation
        (.takesNoArgs (fun t => some (restoreRecordsBody a.data t))) st.table
    ({ st with table := t₂ }, ⟨true, res, a.data.length⟩)

/-- Modelled from the spec: `restore_from_archive` under the intended
helper semantics (`restoreFromArchive` with the callback body actually
executed), re-inserting each archived record over the table's non-id
columns and skipping duplicates. -/
def restoreFromArchiveIntended (archive : Option ArchiveFile) (st : ArchState) :
    ArchState × RestoreFromArchiveResult :=
  match archive with
  | none => (st, ⟨false, none, 0⟩)
  | some a =>
    let (t₂, count) := restoreRecordsBody a.data st.table
    ({ st with table := t₂ }, ⟨true, some count, a.data.length⟩)

/-!
## Backup verification (`src/core/backup_verification.py`)

A SQLite file is modelled by its parsed content: a list of named tables,
each with `PRAGMA table_info` column descriptors and rows (each row a list
of values in column order).  A file on disk either is present and parses
as a database, is present but unreadable, or is absent.
-/

/-- One entry of `PRAGMA table_info`: name, declared type, NOT NULL flag
and primary-key flag, as captured by `get_database_schema`. -/
structure Column where
  name : String
  type : String
  notnull : Bool
  pk : Bool
deriving DecidableEq, Repr

/-- A table of a database file: its columns and its rows (values listed in
column order, as `SELECT *` returns them). -/
structure DbTable where
  columns : List Column
  rows : List (List Value)
deriving DecidableEq, Repr

/-- A parsed SQLite database: named tables in `sqlite_master` order. -/
abbrev Database := List (String × DbTable)

/-- A file on disk as the verifier sees it: whether it exists, and its
parse as a SQLite database (`none` when opening it as a database fails). -/
structure DiskFile where
  present : Bool
  db : Option Database
deriving DecidableEq, Repr

/-- Table lookup by name. -/
def findTable (db : Database) (n : String) : Option DbTable :=
  (db.find? (fun p => p.1 = n)).map (·.2)

/-- The structural fingerprint captured by the `get_schema` callback body:
per table its column descriptors and row count. -/
def schemaOf (db : Database) : List (String × (List Column × Nat)) :=
  db.map (fun p => (p.1, (p.2.columns, p.2.rows.length)))

/-- Embedding of `BackupVerificationManager.get_database_schema` as wired
in `src/`: the `get_schema` callback is zero-argument and the call passes
`default={}`, so `safe_db_operation` raises `TypeError` and the method
returns `None` (`none` here), never the schema and never the `{}`
default. -/
def getDatabaseSchema (file : Option Database) :
    Option (List (String × (List Column × Nat))) :=
  (safeDbOperation
    (.takesNoArgs (fun (u : Unit) =>
      some (u, (file.map schemaOf).getD []))) ()).2

/-- Modelled from the spec: `get_database_schema` under the intended
helper semantics, where the callback runs and a database error (an
unreadable file) falls back to the `default={}` empty fingerprint. -/
def getDatabaseSchemaIntended (file : Option Database) :
    List (String × (List Column × Nat)) :=
  match file with
  | some db => schemaOf db
  | none => []

/-- Equality of the per-table column dictionaries
`{col["name"]: col for col in columns}` built by the schema comparison:
two Python dicts are equal when they agree as finite maps. -/
def colMapEq (a b : List Column) : Bool :=
  (a.all (fun c => (b.find? (fun d => d.name = c.name)) = some c)) &&
  (b.all (fun c => (a.find? (fun d => d.name = c.name)) = some c))

/-- One table's check in the schema comparison loop: present in the backup
fingerprint with an equal column dictionary. -/
def tableMatches (backupSchema : List (String × (List Column × Nat)))
    (entry : String × (List Column × Nat)) : Bool :=
  match backupSchema.find? (fun p => p.1 = entry.1) with
  | none => false
  | some p => colMapEq p.2.1 entry.2.1

/-- The error strings the schema comparison loop appends for one live
table absent or mismatched in the backup. -/
def tableErrors (backupSchema : List (String × (List Column × Nat)))
    (entry : String × (List Column × Nat)) : List String :=
  match backupSchema.find? (fun p => p.1 = entry.1) with
  | none => ["Missing table in backup: " ++ entry.1]
  | some p =>
    if colMapEq p.2.1 entry.2.1 then [] else ["Schema mismatch in table: " ++ entry.1]

/-- The fixed critical-table list of `verify_data_sample`. -/
def testTables : List String := ["weekly_digests", "daily_headlines", "user_feedback"]

/-- Validity of one sampled record against the table's columns: no
NOT-NULL column holds a null (`record[i] is None`). -/
def rowSampleOk (cols : List Column) (r : List Value) : Bool :=
  (cols.zip r).all (fun p => !p.1.notnull || p.2.isSome)

/-- One table's check in the `check_sample` callback body: a missing table
is tolerated (`sqlite3.Error` → `continue`); a non-empty table must have a
non-empty sample of up to `sampleSize` rows whose first 10 records violate
no NOT NULL constraint. -/
def tableSampleOk (sampleSize : Nat) (db : Database) (tname : String) : Bool :=
  match findTable db tname with
  | none => true
  | some t =>
    if t.rows.length = 0 then true
    else
      let sample := t.rows.take (min sampleSize t.rows.length)
      if sample.isEmpty then false
      else (sample.take 10).all (rowSampleOk t.columns)

/-- Body of the `check_sample` callback of `verify_data_sample`. -/
def checkSampleBody (sampleSize : Nat) (db : Database) : Bool :=
  testTables.all (tableSampleOk sampleSize db)

/-- Embedding of `BackupVerificationManager.verify_data_sample` as wired
in `src/`: `check_sample` is zero-argument with `default=False`, so
`safe_db_operation` raises `TypeError` and the method returns `None`
(Python) — `none` here; the type is `Option Bool` because the Python
value is assigned unchanged into `data_sample_valid`. -/
def verifyDataSample (sampleSize : Nat) (backup : Option Database) : Option Bool :=
  (safeDbOperation
    (.takesNoArgs (fun (u : Unit) =>
      some (u, (backup.map (checkSampleBody sampleSize)).getD false))) ()).2

/-- Modelled from the spec: `verify_data_sample` under the intended helper
semantics (callback executed; unreadable backup falls back to the
`default=False`). -/
def verifyDataSampleIntended (sampleSize : Nat) (backup : Option Database) : Bool :=
  match backup with
  | some db => checkSampleBody sampleSize db
  | none => false

/-- The verification report dict.  `dataSampleValid` is an `Option Bool`
because the code stores the raw return of `verify_data_sample` (which is
`None` as wired); `overallValid` is an `Option Bool` because the two early
returns leave the `overall_valid` key unset. -/
structure VerificationReport where
  fileExists : Bool
  databaseReadable : Bool
  schemaValid : Bool
  dataSampleValid : Option Bool
  errors : List String
  overallValid : Option Bool
deriving DecidableEq, Repr

/-- The schema-verification step of `verify_backup_integrity`, shared by
the wired and intended embeddings: given the two fingerprints as the
Python values they are (`none` standing for Python `None`), produce the
`schema_valid` flag and appended errors.  When either fingerprint is
`None`, the iteration `original_schema.items()` (or the lookup
`table_name not in backup_schema`) raises, the `except` branch appends a
"Schema verification failed" error, and `schema_valid` keeps its initial
`False`. -/
def schemaStep (backupSchema origSchema : Option (List (String × (List Column × Nat)))) :
    Bool × List String :=
  match backupSchema, origSchema with
  | some bs, some os =>
    (os.all (tableMatches bs), os.flatMap (tableErrors bs))
  | _, _ =>
    (false, ["Schema verification failed: NoneType object is not iterable"])

/-- Embedding of `BackupVerificationManager.verify_backup_integrity` as
wired in `src/` (`backup` is the backup file on disk, `live` the parse of
the live database at `self.db_path`, `sampleSize` the configured
`test_sample_size`).  The file-existence and readability checks
short-circuit; the schema comparison runs on the two `None` fingerprints
returned by `getDatabaseSchema` and therefore records a failure; the data
sample step stores `None`; `overall_valid` is the conjunction of the
flags with emptiness of the error list. -/
def verifyBackupIntegrity (sampleSize : Nat) (backup : DiskFile)
    (live : Option Database) : VerificationReport :=
  if !backup.present then
    ⟨false, false, false, some false, ["Backup file does not exist"], none⟩
  else
    match backup.db with
    | none =>
      ⟨true, false, false, some false, ["Database not readable: file is not a database"], none⟩
    | some _ =>
      let (schemaValid, schemaErrs) :=
        schemaStep (getDatabaseSchema backup.db) (getDatabaseSchema live)
      let sample := verifyDataSample sampleSize backup.db
      let errors := schemaErrs
      ⟨true, true, schemaValid, sample, errors,
        some (schemaValid && sample.getD false && errors.isEmpty)⟩

/-- Modelled from the spec: `verify_backup_integrity` under the intended
helper semantics, in which the fingerprint and data-sample callbacks
actually run (as the spec's `verifyIntegrity` describes steps 4-6). -/
def verifyBackupIntegrityIntended (sampleSize : Nat) (backup : DiskFile)
    (live : Option Database) : VerificationReport :=
  if !backup.present then
    ⟨false, false, false, some false, ["Backup file does not exist"], none⟩
  else
    match backup.db with
    | none =>
      ⟨true, false, false, some false, ["Database not readable: file is not a database"], none⟩
    | some _ =>
      let (schemaValid, schemaErrs) :=
        schemaStep (some (getDatabaseSchemaIntended backup.db))
          (some (getDatabaseSchemaIntended live))
      let sample := verifyDataSampleIntended sampleSize backup.db
      let errors := schemaErrs
      ⟨true, true, schemaValid, some sample, errors,
        some (schemaValid && sample && errors.isEmpty)⟩

/-!
## Safety-gated restore (`src/core/classes/data_restore.py`)

The coordinator's observable state comprises the live database file, the
safety-backup copies created next to it, the live `config/` and `logs/`
trees, the `restore_history` audit table, and the number of leftover
`temp_restore_*` extraction directories.  Every run additionally emits an
event trace used to state ordering properties (safety backup before
destructive write, temporary-directory cleanup).
-/

/-- One row of the `restore_history` audit table (minus the autoincrement
id and timestamp). -/
structure HistoryRow where
  backupFile : String
  restoreType : String
  status : String
  notes : Option String
deriving DecidableEq, Repr

/-- The state the restore manager can touch. -/
structure RestoreState where
  liveDb : Option String
  safetyBackups : List String
  configFiles : List (String × String)
  logFiles : List (String × String)
  history : List HistoryRow
  tempDirs : Nat
deriving DecidableEq, Repr

/-- Observable events of a restore run, in program order. -/
inductive REvent where
  | safetyBackupCreated
  | liveDbWritten
  | configWritten
  | logsWritten
  | tempCreated
  | tempRemoved
  | historyLogged
deriving DecidableEq, Repr

/-- Failure injection for the filesystem steps of a restore
(`shutil.copy2` of the safety backup, of the database restore, and the
copy-over of the three full-system subtrees).  A `false` component makes
the corresponding Python call raise. -/
structure RestoreEnv where
  safetyCopyOk : Bool
  restoreCopyOk : Bool
  dbCopyOk : Bool
  configCopyOk : Bool
  logsCopyOk : Bool
deriving DecidableEq, Repr

/-- Embedding of `DataRestoreManager.create_safety_backup`: a missing
target returns `None` at once; otherwise `shutil.copy2` either produces
the timestamped sibling copy or raises, in which case the exception is
caught inside the method and `None` is returned. -/
def createSafetyBackup (env : RestoreEnv) (st : RestoreState) :
    RestoreState × Option String × List REvent :=
  match st.liveDb with
  | none => (st, none, [])
  | some content =>
    if env.safetyCopyOk then
      ({ st with safetyBackups := st.safetyBackups ++ [content] },
        some content, [REvent.safetyBackupCreated])
    else (st, none, [])

/-- Embedding of `DataRestoreManager._log_restore_operation`: one
`INSERT INTO restore_history` through the (spec-modelled)
`functions.utils.safe_db_operation` helper. -/
def logRestoreOperation (backupFile restoreType status : String)
    (notes : Option String) (st : RestoreState) : RestoreState × List REvent :=
  let (st₂, _) := functionsSafeDbOperation
    (fun s : RestoreState =>
      some ({ s with history := s.history ++ [⟨backupFile, restoreType, status, notes⟩] }, ()))
    st
  (st₂, [.historyLogged])

/-- A backup file argument to `restore_database`: `none` when
`os.path.exists` fails, otherwise its name and content. -/
structure DbBackupFile where
  name : String
  content : String
deriving DecidableEq, Repr

/-- Embedding of `DataRestoreManager.restore_database`: existence check,
confirmation callback (`confirm = none` models passing no callback, which
skips the check), then inside `try`: safety backup (a failure inside it is
swallowed), `shutil.copy2(backup_file, target_db)`, and the audit row —
`success` after the copy, `failed` from the `except` branch when the copy
raises. -/
def restoreDatabase (backup : Option DbBackupFile) (confirm : Option Bool)
    (env : RestoreEnv) (st : RestoreState) : RestoreState × Bool × List REvent :=
  match backup with
  | none => (st, false, [])
  | some b =>
    if confirm = some false then (st, false, [])
    else
      let (st₁, safety, ev₁) := createSafetyBackup env st
      if env.restoreCopyOk then
        let st₂ := { st₁ with liveDb := some b.content }
        let (st₃, ev₃) := logRestoreOperation b.name "database" "success"
          (safety.map (fun s => "Safety backup: " ++ s)) st₂
        (st₃, true, ev₁ ++ [.liveDbWritten] ++ ev₃)
      else
        let (st₂, ev₂) := logRestoreOperation b.name "database" "failed"
          (some "copy failed") st₁
        (st₂, false, ev₁ ++ ev₂)

/-- A full-system bundle argument to `restore_full_system`: `none` when
the file does not exist; otherwise its name, whether `tar -xzf` exits 0,
the top-level directory names of the extraction, and the `data/`,
`config/` and `logs/` subtrees of the first `canary_backup_*` directory
(`configDir`/`logsDir` are `none` when the subtree is absent). -/
structure SysBundle where
  name : String
  isTarGz : Bool
  extractOk : Bool
  topDirs : List String
  dbFile : Option String
  configDir : Option (List (String × String))
  logsDir : Option (List (String × String))
deriving DecidableEq, Repr

/-- Copy of the bundle's files over a live directory: same-named files are
overwritten, others kept (`shutil.copy2` per file). -/
def overwriteFiles (dst src : List (String × String)) : List (String × String) :=
  src.foldl
    (fun acc f =>
      if acc.any (fun g => g.1 = f.1)
      then acc.map (fun g => if g.1 = f.1 then f else g)
      else acc ++ [f])
    dst

/-- Embedding of `DataRestoreManager.restore_full_system`.  In program
order: existence and `.tar.gz` checks, confirmation, then inside `try`:
safety backup of the live database, creation of the `temp_restore_*`
directory, `tar` extraction (failure removes the directory and returns
`False` with no audit row), the `canary_backup_*` validation (same), then
the copy-over of the `data/`, `config/` and `logs/` subtrees — an
exception there lands in the `except` branch, which logs a `failed` audit
row and returns `False` without removing the temporary directory; the
success path removes it and logs a `success` row. -/
def restoreFullSystem (bundle : Option SysBundle) (confirm : Option Bool)
    (env : RestoreEnv) (st : RestoreState) : RestoreState × Bool × List REvent :=
  match bundle with
  | none => (st, false, [])
  | some b =>
    if !b.isTarGz then (st, false, [])
    else if confirm = some false then (st, false, [])
    else
      let (st₁, safety, ev₁) := createSafetyBackup env st
      let st₂ := { st₁ with tempDirs := st₁.tempDirs + 1 }
      let ev₂ := ev₁ ++ [.tempCreated]
      if !b.extractOk then
        ({ st₂ with tempDirs := st₂.tempDirs - 1 }, false, ev₂ ++ [.tempRemoved])
      else if (b.topDirs.filter (fun d => strStarts d "canary_backup_")).isEmpty then
        ({ st₂ with tempDirs := st₂.tempDirs - 1 }, false, ev₂ ++ [.tempRemoved])
      else
        if b.dbFile.isSome && !env.dbCopyOk then
          let (st₃, ev₃) := logRestoreOperation b.name "full_system" "failed"
            (some "copy failed") st₂
          (st₃, false, ev₂ ++ ev₃)
        else
          let (st₃, ev₃) :=
            match b.dbFile with
            | some content => ({ st₂ with liveDb := some content }, ev₂ ++ [REvent.liveDbWritten])
            | none => (st₂, ev₂)
          if (match b.configDir with
              | some files => !files.isEmpty
              | none => false) && !env.configCopyOk then
            let (st₄, ev₄) := logRestoreOperation b.name "full_system" "failed"
              (some "copy failed") st₃
            (st₄, false, ev₃ ++ ev₄)
          else
            let (st₄, ev₄) :=
              match b.configDir with
              | some files =>
                if files.isEmpty then (st₃, ev₃)
                else
                  ({ st₃ with configFiles := overwriteFiles st₃.configFiles files },
                    ev₃ ++ [REvent.configWritten])
              | none => (st₃, ev₃)
            if (match b.logsDir with
                | some files => !files.isEmpty
                | none => false) && !env.logsCopyOk then
              let (st₅, ev₅) := logRestoreOperation b.name "full_system" "failed"
                (some "copy failed") st₄
              (st₅, false, ev₄ ++ ev₅)
            else
              let (st₅, ev₅) :=
                match b.logsDir with
                | some files =>
                  if files.isEmpty then (st₄, ev₄)
                  else
                    ({ st₄ with logFiles := overwriteFiles st₄.logFiles files },
                      ev₄ ++ [REvent.logsWritten])
                | none => (st₄, ev₄)
              let st₆ := { st₅ with tempDirs := st₅.tempDirs - 1 }
              let (st₇, ev₇) := logRestoreOperation b.name "full_system" "success"
                (safety.map (fun s => "Safety backups: Database: " ++ s)) st₆
              (st₇, true, ev₅ ++ [.tempRemoved] ++ ev₇)

/-!
## Schema migrations, JSON-file variant
(`src/core/classes/database_migrations.py`, `MigrationManager`)

A migration database is the `schema_migrations` tracking table together
with an abstract schema state `σ`.  SQL statement execution is the
external SQLite engine, passed in as `exec : String → σ → Option σ`
(`none` models `sqlite3.Error`).
-/

/-- A loaded migration file: version, description, forward SQL and
(optional, possibly empty) rollback SQL. -/
structure Migration where
  version : String
  description : String
  upSql : String
  downSql : String
deriving DecidableEq, Repr

/-- The database as the migration manager sees it: the rows of
`schema_migrations` (version, description) in insertion order, plus the
schema state. -/
structure MigDb (σ : Type u) where
  applied : List (String × String)
  schema : σ
deriving DecidableEq

/-- The statement splitting `migration['up_sql'].split(';')` with
per-statement `strip()` and the skip of empty statements. -/
def splitStatements (sql : String) : List String :=
  ((pySplit ';' sql).map (fun s => strTrim s)).filter (fun s => s ≠ "")

/-- Sequential execution of a statement list on the schema through the
SQL engine; the first failing statement aborts (`none`). -/
def runStatements (exec : String → σ → Option σ) :
    List String → σ → Option σ
  | [], s => some s
  | stmt :: rest, s =>
    match exec stmt s with
    | some s₂ => runStatements exec rest s₂
    | none => none

/-- SQLite `ORDER BY version DESC LIMIT 1` over the tracking table: the
lexicographically (BINARY-collation) greatest version string, `none` on an
empty table. -/
def sqlTextMax : List String → Option String
  | [] => none
  | v :: vs =>
    match sqlTextMax vs with
    | none => some v
    | some w => some (if pyStrLt w v then v else w)

/-- Embedding of `MigrationManager.get_current_version`: the newest
version by SQL text ordering, with sentinel `"0.0.0"` when nothing is
applied (both the `fetchone() is None` branch and the helper-failure
branch return it). -/
def getCurrentVersion (db : MigDb σ) : String :=
  (sqlTextMax (db.applied.map (·.1))).getD "0.0.0"

/-- Embedding of `MigrationManager.rollback_migration`: the migration is
looked up among the loaded files (`False` when missing), its `down_sql`
must be non-empty (`False` otherwise — `migration.get('down_sql')` is
falsy), and the `execute_rollback` callback runs the down-statements plus
`DELETE FROM schema_migrations WHERE version = ?` in one (spec-modelled)
transaction. -/
def rollbackMigration (exec : String → σ → Option σ)
    (defined : List Migration) (version : String) (db : MigDb σ) :
    MigDb σ × Bool :=
  match defined.find? (fun m => m.version = version) with
  | none => (db, false)
  | some m =>
    if m.downSql = "" then (db, false)
    else
      match functionsSafeDbOperation
        (fun db₂ : MigDb σ =>
          match runStatements exec (splitStatements m.downSql) db₂.schema with
          | none => none
          | some s₂ =>
            some (⟨db₂.applied.filter (fun p => p.1 ≠ version), s₂⟩, true))
        db with
      | (db₂, some _) => (db₂, true)
      | (db₂, none) => (db₂, false)

/-!
## Schema migrations, built-in variant
(`src/core/database_migrations.py`, `DatabaseMigrationSystem`)

Versions are integers, migrations carry a Python callable mutating the
schema through the cursor, there is no down SQL, and the module talks to
`sqlite3` directly: `apply_migration` commits the callable's work plus the
tracking insert together, rolls back and re-raises on any exception, and
`migrate` lets that exception abort the remaining batch.
-/

/-- The database as `DatabaseMigrationSystem` sees it: the rows of the
`migrations` tracking table and the schema state. -/
structure DmsDb (σ : Type u) where
  applied : List (Int × String × String)
  schema : σ
deriving DecidableEq

/-- SQL `MAX(version)` over the integer tracking table. -/
def sqlIntMax : List Int → Option Int
  | [] => none
  | v :: vs =>
    match sqlIntMax vs with
    | none => some v
    | some w => some (max v w)

/-- Embedding of `DatabaseMigrationSystem.get_current_version`:
`SELECT MAX(version) FROM migrations`, with 0 when the table is empty
(and on errors). -/
def dmsGetCurrentVersion (db : DmsDb σ) : Int :=
  (sqlIntMax (db.applied.map (·.1))).getD 0

/-- Embedding of `DatabaseMigrationSystem.rollback`: refuse when
`target_version >= current`; otherwise delete the tracking rows with
`version > target` and commit — the schema itself is untouched ("Schema
changes are not automatically reverted"). -/
def dmsRollback (target : Int) (db : DmsDb σ) : DmsDb σ × Bool :=
  if dmsGetCurrentVersion db ≤ target then (db, false)
  else ({ db with applied := db.applied.filter (fun r => r.1 ≤ target) }, true)

/-!
## Semantic-version ordering

Used only to state claim C6 ("highest applied version" of semantic
version strings): parse `a.b.c` into its numeric components and compare
componentwise. -/

/-- Numeric components of a dotted version string (non-numeric components
count as 0). -/
def semverParts (v : String) : List Nat :=
  (pySplit '.' v).map (fun s => (natOfDigits s.data).getD 0)

/-- Semantic-version comparison: lexicographic on the numeric component
lists. -/
def semverLt (a b : String) : Bool :=
  semverParts a < semverParts b

/-- The semantically highest version of a list. -/
def semverMax : List String → Option String
  | [] => none
  | v :: vs =>
    match semverMax vs with
    | none => some v
    | some w => some (if semverLt w v then v else w)

/-!
## Concrete fixtures

Small closed instances used by counterexamples and witnesses.
-/

/-- A stale `daily_headlines` row (archival candidate for any cutoff in
2025). -/
def exRow1 : Row := ⟨1, [("created_at", some "2024-01-01"), ("title", some "old story")]⟩

/-- A fresh `daily_headlines` row. -/
def exRow2 : Row := ⟨5, [("created_at", some "2025-09-01"), ("title", some "new story")]⟩

/-- A two-row `daily_headlines` table with no UNIQUE constraints beyond
the id primary key. -/
def exTable : ArchTable := ⟨"daily_headlines", ["created_at", "title"], [], [exRow1, exRow2]⟩

/-- Archival state holding `exTable` and no archives yet. -/
def exArchState : ArchState := ⟨exTable, []⟩

/-- A two-row `weekly_digests`-style table: its `date` column carries a
SQLite `UNIQUE` constraint (as in both migration variants' schemas), the
archival cutoff runs over `created_at`, and the first row is stale. -/
def exDigestsTable : ArchTable :=
  ⟨"weekly_digests", ["date", "created_at"], ["date"],
    [⟨1, [("date", some "2024-06-02"), ("created_at", some "2024-06-02")]⟩,
      ⟨5, [("date", some "2025-09-07"), ("created_at", some "2025-09-07")]⟩]⟩

/-- Archival state holding `exDigestsTable` and no archives yet. -/
def exDigestsState : ArchState := ⟨exDigestsTable, []⟩

/-- A record whose UNIQUE `date` value is already present in
`exDigestsTable` (so re-inserting it raises `IntegrityError`). -/
def exConflictRecord : Row :=
  ⟨9, [("date", some "2025-09-07"), ("created_at", some "2025-01-01")]⟩

/-- A one-table live database for the verification fixtures. -/
def exDb : Database :=
  [("daily_headlines",
    ⟨[⟨"id", "INTEGER", false, true⟩, ⟨"date", "TEXT", true, false⟩],
      [[some "1", some "2025-01-01"]]⟩)]

/-- A restore state with a pre-existing live database and one config
file. -/
def exRestoreState : RestoreState :=
  ⟨some "livedb", [], [("config.yaml", "oldcfg")], [], [], 0⟩

/-- Environment in which every filesystem operation succeeds. -/
def envAllOk : RestoreEnv := ⟨true, true, true, true, true⟩

/-- Environment in which only the safety-backup copy fails. -/
def envNoSafety : RestoreEnv := ⟨false, true, true, true, true⟩

/-- Environment in which only the config-subtree copy fails. -/
def envConfigFail : RestoreEnv := ⟨true, true, true, false, true⟩

/-- A database backup file. -/
def exBackup : DbBackupFile := ⟨"backup.db", "backupcontent"⟩

/-- A well-formed full-system bundle carrying a database and one config
file. -/
def exBundle : SysBundle :=
  ⟨"bundle.tar.gz", true, true, ["canary_backup_20250101"],
    some "bundledb", some [("config.yaml", "newcfg")], none⟩

/-- A toy SQL engine over a statement-log schema: every statement succeeds
and is appended, except the statement `"BAD"`, which errors. -/
def toyExec (stmt : String) (schema : List String) : Option (List String) :=
  if stmt = "BAD" then none else some (schema ++ [stmt])

/-- A migration with no rollback SQL. -/
def exMig1 : Migration := ⟨"1.0.0", "initial schema", "CREATE A; CREATE B", ""⟩

/-- A migration with rollback SQL. -/
def exMig2 : Migration := ⟨"1.1.0", "second", "CREATE C", "DROP C"⟩

/-- An empty migration database over the statement-log schema. -/
def exMigDb : MigDb (List String) := ⟨[], []⟩

/-- Claim C1 as stated: for every table with at least one archival
candidate, `archive_table_data` produces an archive file and
`restore_from_archive` on it re-inserts exactly the removed rows — same
primary keys, all column values unchanged (so the final table holds
exactly the original rows again). -/
def c1AsStated : Prop :=
  ∀ (dateCol cutoff : String) (retention : Nat) (st : ArchState),
    getCandidatesBody dateCol cutoff st.table ≠ [] →
    ∃ f, ((archiveTableData dateCol cutoff retention true st).2).archiveFile = some f ∧
      ((restoreFromArchive (some f)
          (archiveTableData dateCol cutoff retention true st).1).1).table.rows.Perm
        st.table.rows

/-- Claim C3 as stated: every invocation of `restore_database` and of
`restore_full_system`, whatever its outcome, appends exactly one
`restore_history` row. -/
def c3AsStated : Prop :=
  (∀ (backup : Option DbBackupFile) (confirm : Option Bool) (env : RestoreEnv)
      (st : RestoreState),
    (((restoreDatabase backup confirm env st).1).history).length = st.history.length + 1) ∧
  (∀ (bundle : Option SysBundle) (confirm : Option Bool) (env : RestoreEnv)
      (st : RestoreState),
    (((restoreFullSystem bundle confirm env st).1).history).length = st.history.length + 1)

/-- Claim C6 as stated: `get_current_version` returns the highest applied
semantic version (sentinel `"0.0.0"` when none), and the built-in variant
the highest integer version (sentinel 0). -/
def c6AsStated : Prop :=
  (∀ (applied : List (String × String)),
    getCurrentVersion (⟨applied, ()⟩ : MigDb Unit) =
      (semverMax (applied.map (·.1))).getD "0.0.0") ∧
  (∀ (applied : List (Int × String × String)),
    dmsGetCurrentVersion (⟨applied, ()⟩ : DmsDb Unit) =
      ((applied.map (·.1)).max?).getD 0)

/-- Claim C7 as stated: `restore_database` never overwrites an existing
live database unless a safety backup was successfully created first — in
the run's event trace a `liveDbWritten` on a pre-existing target is
preceded by `safetyBackupCreated`. -/
def c7AsStated : Prop :=
  ∀ (backup : Option DbBackupFile) (confirm : Option Bool) (env : RestoreEnv)
      (st : RestoreState),
    st.liveDb.isSome →
    REvent.liveDbWritten ∈ (restoreDatabase backup confirm env st).2.2 →
    REvent.safetyBackupCreated ∈
      ((restoreDatabase backup confirm env st).2.2).takeWhile
        (fun e => e ≠ REvent.liveDbWritten)

/-- Claim C8 as stated: `restore_full_system` never leaves its temporary
extraction directory behind, and a failed restore never modifies any live
path (database, config, logs). -/
def c8AsStated : Prop :=
  ∀ (bundle : Option SysBundle) (confirm : Option Bool) (env : RestoreEnv)
      (st : RestoreState),
    ((restoreFullSystem bundle confirm env st).1.tempDirs = st.tempDirs) ∧
    ((restoreFullSystem bundle confirm env st).2.1 = false →
      (restoreFullSystem bundle confirm env st).1.liveDb = st.liveDb ∧
      (restoreFullSystem bundle confirm env st).1.configFiles = st.configFiles ∧
      (restoreFullSystem bundle confirm env st).1.logFiles = st.logFiles)

/-- Claim C9 as stated: rollback fails (leaving the database untouched)
when the migration has no down SQL, and otherwise reverts; in particular
the built-in variant, whose migrations define no down SQL at all, must
never mutate the database on rollback. -/
def c9AsStated : Prop :=
  (∀ (exec : String → Unit → Option Unit) (defined : List Migration)
      (v : String) (db : MigDb Unit) (m : Migration),
    defined.find? (fun m₂ => m₂.version = v) = some m →
    m.downSql = "" →
    rollbackMigration exec defined v db = (db, false)) ∧
  (∀ (target : Int) (db : DmsDb Unit), (dmsRollback target db).1 = db)

/-!
## Auxiliary lemmas
-/

theorem insertOn_perm (key : α → String) (x : α) (l : List α) :
    List.Perm (insertOn key x l) (x :: l) := by
  induction l with
  | nil => exact List.Perm.refl _
  | cons y ys ih =>
    simp only [insertOn]
    split
    · exact (ih.cons y).trans (List.Perm.swap x y ys)
    · exact List.Perm.refl _

theorem sortOn_perm (key : α → String) (l : List α) :
    List.Perm (sortOn key l) l := by
  induction l with
  | nil => exact List.Perm.refl _
  | cons x xs ih => exact (insertOn_perm key x (sortOn key xs)).trans (ih.cons x)

theorem mem_sortOn {key : α → String} {l : List α} {a : α} :
    a ∈ sortOn key l ↔ a ∈ l :=
  (sortOn_perm key l).mem_iff

theorem le_foldr_max (l : List Nat) (i : Nat) (hi : i ∈ l) : i ≤ l.foldr max 0 := by
  induction l with
  | nil => cases hi
  | cons x xs ih =>
    rcases List.mem_cons.mp hi with h | h
    · subst h; exact le_max_left _ _
    · exact le_trans (ih h) (le_max_right _ _)

theorem nextId_not_mem (t : ArchTable) : nextId t ∉ t.rows.map Row.id := by
  intro h
  have h₂ := le_foldr_max (t.rows.map Row.id) _ h
  unfold nextId at h₂
  omega

theorem lookupField_cons_self (k : String) (v : Value) (rest : Fields) :
    lookupField k ((k, v) :: rest) = v := by
  unfold lookupField
  rw [List.find?_cons_of_pos _ (by simp)]

theorem lookupField_cons_ne (k k₂ : String) (v : Value) (rest : Fields)
    (h : k₂ ≠ k) : lookupField k ((k₂, v) :: rest) = lookupField k rest := by
  unfold lookupField
  rw [List.find?_cons_of_neg _ (by simp [h])]

theorem rebuild_fields (fs : Fields) (hnd : (fs.map Prod.fst).Nodup) :
    (fs.map Prod.fst).map (fun c => (c, lookupField c fs)) = fs := by
  induction fs with
  | nil => rfl
  | cons kv rest ih =>
    obtain ⟨k, v⟩ := kv
    simp only [List.map_cons, List.nodup_cons] at hnd
    obtain ⟨hk, hnd₂⟩ := hnd
    simp only [List.map_cons, lookupField_cons_self]
    congr 1
    calc (rest.map Prod.fst).map (fun c => (c, lookupField c ((k, v) :: rest)))
        = (rest.map Prod.fst).map (fun c => (c, lookupField c rest)) := by
          apply List.map_congr_left
          intro c hc
          have hne : k ≠ c := fun hkc => hk (hkc ▸ hc)
          rw [lookupField_cons_ne c k v rest hne]
      _ = rest := ih hnd₂

theorem rebuild_fields_of_keys (cols : List String) (fs : Fields)
    (hkeys : fs.map Prod.fst = cols) (hnd : cols.Nodup) :
    cols.map (fun c => (c, lookupField c fs)) = fs := by
  subst hkeys
  exact rebuild_fields fs hnd

theorem deleteArchivedBody_filter (p : Row → Bool) (t : ArchTable)
    (cands : List Row) (hnd : (t.rows.map Row.id).Nodup)
    (hcands : ∀ r, r ∈ cands ↔ (r ∈ t.rows ∧ p r = true)) :
    (deleteArchivedBody (cands.map Row.id) t).1.rows =
      t.rows.filter (fun r => !(p r)) := by
  unfold deleteArchivedBody
  apply List.filter_congr
  intro r hr
  suffices h : (cands.map Row.id).contains r.id = p r by rw [h]
  cases hp : p r with
  | true =>
    have hmem : r.id ∈ cands.map Row.id :=
      List.mem_map_of_mem Row.id ((hcands r).mpr ⟨hr, hp⟩)
    simpa using hmem
  | false =>
    rw [Bool.eq_false_iff]
    intro hcontains
    have hmem : r.id ∈ cands.map Row.id := by simpa using hcontains
    obtain ⟨c, hc, hci⟩ := List.mem_map.mp hmem
    obtain ⟨hcrow, hpc⟩ := (hcands c).mp hc
    have hcr : c = r := List.inj_on_of_nodup_map hnd hcrow hr hci
    rw [hcr] at hpc
    rw [hpc] at hp
    cases hp

theorem restoreOne_cases (t : ArchTable) (record : Row) :
    (insertConflicts t (t.columns.map (fun c => (c, lookupField c record.fields))) = true ∧
      restoreOne t record = (t, false)) ∨
    (insertConflicts t (t.columns.map (fun c => (c, lookupField c record.fields))) = false ∧
      restoreOne t record =
        ({ t with rows := t.rows ++
          [⟨nextId t, t.columns.map (fun c => (c, lookupField c record.fields))⟩] }, true)) := by
  unfold restoreOne
  cases hc : insertConflicts t (t.columns.map (fun c => (c, lookupField c record.fields))) with
  | true => left; exact ⟨rfl, by simp [hc]⟩
  | false => right; exact ⟨rfl, by simp [hc]⟩

theorem restoreRecordsBody_all_inserted (records : List Row) :
    ∀ (t : ArchTable), records.Nodup → noConflicts t records →
    (restoreRecordsBody records t).1.name = t.name ∧
    (restoreRecordsBody records t).1.columns = t.columns ∧
    (restoreRecordsBody records t).1.uniqueCols = t.uniqueCols ∧
    (restoreRecordsBody records t).2 = records.length ∧
    (restoreRecordsBody records t).1.rows.map Row.fields =
      t.rows.map Row.fields ++
        records.map (fun r => t.columns.map (fun c => (c, lookupField c r.fields))) ∧
    ((t.rows.map Row.id).Nodup →
      ((restoreRecordsBody records t).1.rows.map Row.id).Nodup) := by
  induction records with
  | nil =>
    intro t _ _
    simp [restoreRecordsBody]
  | cons record rest ih =>
    intro t hndr hnc
    have hconf :
        insertConflicts t (t.columns.map fun c => (c, lookupField c record.fields)) =
          false := by
      rw [Bool.eq_false_iff]
      intro htrue
      unfold insertConflicts at htrue
      rw [List.any_eq_true] at htrue
      obtain ⟨u, hu, hmatch⟩ := htrue
      cases hv : lookupField u (t.columns.map fun c => (c, lookupField c record.fields)) with
      | none => rw [hv] at hmatch; cases hmatch
      | some v =>
        rw [hv] at hmatch
        rw [List.any_eq_true] at hmatch
        obtain ⟨row, hrow, heq⟩ := hmatch
        simp only [decide_eq_true_eq] at heq
        exact (hnc u hu record (List.mem_cons_self _ _) v hv).1 row hrow heq
    have hnc₂ : noConflicts
        { t with rows := t.rows ++
          [⟨nextId t, t.columns.map fun c => (c, lookupField c record.fields)⟩] } rest := by
      intro u hu r hr v hv
      obtain ⟨h1, h2⟩ := hnc u hu r (List.mem_cons_of_mem _ hr) v hv
      constructor
      · intro row hrow
        rcases List.mem_append.mp hrow with hrow | hrow
        · exact h1 row hrow
        · rw [List.mem_singleton] at hrow
          subst hrow
          exact h2 record (List.mem_cons_self _ _)
            (fun heq => (List.nodup_cons.mp hndr).1 (heq ▸ hr))
      · intro r₂ hr₂ hne
        exact h2 r₂ (List.mem_cons_of_mem _ hr₂) hne
    have hstep : restoreRecordsBody (record :: rest) t =
        ((restoreRecordsBody rest
            { t with rows := t.rows ++
              [⟨nextId t, t.columns.map fun c => (c, lookupField c record.fields)⟩] }).1,
          1 + (restoreRecordsBody rest
            { t with rows := t.rows ++
              [⟨nextId t, t.columns.map fun c => (c, lookupField c record.fields)⟩] }).2) := by
      simp [restoreRecordsBody, restoreOne, hconf]
    obtain ⟨ihn, ihc, ihu, ihcount, ihfields, ihnodup⟩ :=
      ih { t with rows := t.rows ++
        [⟨nextId t, t.columns.map fun c => (c, lookupField c record.fields)⟩] }
        (List.Nodup.of_cons hndr) hnc₂
    rw [hstep]
    refine ⟨ihn, ihc, ihu, by rw [ihcount]; simp [Nat.add_comm], ?_, ?_⟩
    · rw [ihfields]
      simp
    · intro hnd
      apply ihnodup
      simp only [List.map_append, List.map_cons, List.map_nil]
      rw [List.nodup_append]
      refine ⟨hnd, List.nodup_singleton _, ?_⟩
      intro a ha hb
      simp only [List.mem_singleton] at hb
      rw [hb] at ha
      exact nextId_not_mem t ha

theorem archiveIntended_success (dateCol cutoff : String) (retention : Nat)
    (st : ArchState) (c0 : Row) (crest : List Row)
    (hcands : getCandidatesBody dateCol cutoff st.table = c0 :: crest) :
    archiveTableDataIntended dateCol cutoff retention true st =
      (⟨(deleteArchivedBody ((c0 :: crest).map Row.id) st.table).1,
          st.archives ++ [⟨st.table.name, (c0 :: crest).length, retention, c0 :: crest⟩]⟩,
        ⟨some (deleteArchivedBody ((c0 :: crest).map Row.id) st.table).2,
          some ⟨st.table.name, (c0 :: crest).length, retention, c0 :: crest⟩, false⟩) := by
  simp [archiveTableDataIntended, hcands]

theorem candidates_mem (dateCol cutoff : String) (t : ArchTable) (cands : List Row)
    (hcs : getCandidatesBody dateCol cutoff t = cands) :
    ∀ x, x ∈ cands ↔ (x ∈ t.rows ∧ isCandidate dateCol cutoff x = true) := by
  intro x
  rw [← hcs]
  unfold getCandidatesBody
  rw [mem_sortOn, List.mem_filter]

/-!
## Claim theorems
-/

/-- C2: `archive_table_data` never deletes a row from the live table
before the archive containing it has been completely written.  First
conjunct: as wired through `src/core/utils.py`'s `safe_db_operation`, the
method is a universal no-op (the candidate callback raises `TypeError`),
so in particular the table is never modified.  Second conjunct: under the
intended callback semantics, a failed archive write leaves the live table
(and archives) untouched.  Third conjunct: under the intended semantics a
successful run deletes only rows that are contained in the archive file it
just wrote (id is the primary key, hence the no-duplicate hypothesis). -/
theorem c2_write_then_delete :
    (∀ (dateCol cutoff : String) (retention : Nat) (writeOk : Bool) (st : ArchState),
      archiveTableData dateCol cutoff retention writeOk st = (st, ⟨some 0, none, false⟩)) ∧
    (∀ (dateCol cutoff : String) (retention : Nat) (st : ArchState),
      (archiveTableDataIntended dateCol cutoff retention false st).1 = st) ∧
    (∀ (dateCol cutoff : String) (retention : Nat) (st : ArchState),
      (st.table.rows.map Row.id).Nodup →
      ∀ r ∈ st.table.rows,
        r ∉ ((archiveTableDataIntended dateCol cutoff retention true st).1).table.rows →
        ∃ a ∈ ((archiveTableDataIntended dateCol cutoff retention true st).1).archives,
          r ∈ a.data) := by
  refine ⟨fun _ _ _ _ _ => rfl, ?_, ?_⟩
  · intro dateCol cutoff retention st
    cases hcs : getCandidatesBody dateCol cutoff st.table with
    | nil => simp [archiveTableDataIntended, hcs]
    | cons c0 crest => simp [archiveTableDataIntended, hcs]
  · intro dateCol cutoff retention st hnd r hr hnot
    cases hcs : getCandidatesBody dateCol cutoff st.table with
    | nil =>
      rw [show (archiveTableDataIntended dateCol cutoff retention true st).1 = st by
        simp [archiveTableDataIntended, hcs]] at hnot
      exact absurd hr hnot
    | cons c0 crest =>
      rw [archiveIntended_success dateCol cutoff retention st c0 crest hcs] at hnot ⊢
      have hmem := candidates_mem dateCol cutoff st.table (c0 :: crest) hcs
      have hdel := deleteArchivedBody_filter (isCandidate dateCol cutoff) st.table
        (c0 :: crest) hnd hmem
      rw [hdel] at hnot
      have hp : isCandidate dateCol cutoff r = true := by
        by_contra hcontra
        apply hnot
        rw [List.mem_filter]
        rw [Bool.not_eq_true] at hcontra
        exact ⟨hr, by simp [hcontra]⟩
      refine ⟨⟨st.table.name, (c0 :: crest).length, retention, c0 :: crest⟩, by simp, ?_⟩
      exact (hmem r).mpr ⟨hr, hp⟩

/-- C2 witness: on the concrete two-row `daily_headlines` table, the old
row is deleted by the intended-semantics archival run and is contained in
the archive file produced by that same run. -/
theorem c2_write_then_delete_witness :
    (exArchState.table.rows.map Row.id).Nodup ∧
    exRow1 ∈ exArchState.table.rows ∧
    exRow1 ∉ ((archiveTableDataIntended "created_at" "2025-01-01" 365 true exArchState).1).table.rows ∧
    ∃ a ∈ ((archiveTableDataIntended "created_at" "2025-01-01" 365 true exArchState).1).archives,
      exRow1 ∈ a.data :=
  ⟨by decide, by decide, by decide,
    c2_write_then_delete.2.2 "created_at" "2025-01-01" 365 exArchState (by decide)
      exRow1 (by decide) (by decide)⟩

/-- C1 counterexample: the claim is false on the two-row fixture.  First,
as wired, `archive_table_data` produces no archive file at all (the claim
asserts one exists).  Second, even under the intended callback semantics
the restored row does not keep its primary key: archiving removes the row
with id 1 and restoring re-inserts its column values under the fresh id 6
(the `INSERT` omits the id column), so the final table is
`[exRow2, ⟨6, exRow1.fields⟩]` and no row with id 1 exists. -/
theorem c1_counterexample :
    ¬ c1AsStated ∧
    ((restoreFromArchiveIntended
        ((archiveTableDataIntended "created_at" "2025-01-01" 365 true exArchState).2).archiveFile
        (archiveTableDataIntended "created_at" "2025-01-01" 365 true exArchState).1).1).table.rows =
      [exRow2, ⟨6, exRow1.fields⟩] ∧
    exRow1.id = 1 ∧ (6 : Nat) ≠ 1 := by
  refine ⟨?_, by decide, by decide, by decide⟩
  intro h
  obtain ⟨f, hf, _⟩ := h "created_at" "2025-01-01" 365 exArchState (by decide)
  rw [show ((archiveTableData "created_at" "2025-01-01" 365 true exArchState).2).archiveFile =
    none from rfl] at hf
  cases hf

/-- C1 (amended): under the intended callback semantics, archiving a table
with at least one candidate and restoring from the produced archive
re-inserts exactly the removed rows with all non-id column values
unchanged but with freshly assigned primary keys (first conjunct): the
multiset of non-id column vectors of the final table equals that of the
original table, the ids remain pairwise distinct, and the restore reports
success.  This covers every archived table, UNIQUE non-id columns
included (e.g. `weekly_digests` with its UNIQUE `date`): the hypotheses
are only the SQLite integrity invariants — distinct primary keys,
distinct schema column names, row dicts on exactly the schema columns,
and no two distinct rows sharing a non-null value in a UNIQUE column.
The remaining conjuncts settle the duplicate-skip clause on the conflict
path of `restoreOne`: a record whose re-insert violates a UNIQUE
constraint is skipped with the table unchanged (second conjunct); no
existing row is ever modified or removed and the restored count tallies
exactly the non-skipped records — skipped, not merged (third conjunct);
and `restore_from_archive` still reports success — skipped, not errored
(fourth conjunct). -/
theorem c1_roundtrip_modulo_ids :
    (∀ (dateCol cutoff : String) (retention : Nat) (st : ArchState),
      (st.table.rows.map Row.id).Nodup →
      st.table.columns.Nodup →
      (∀ r ∈ st.table.rows, r.fields.map Prod.fst = st.table.columns) →
      (∀ u ∈ st.table.uniqueCols, ∀ r₁ ∈ st.table.rows, ∀ r₂ ∈ st.table.rows, r₁ ≠ r₂ →
        lookupField u r₁.fields = none ∨
          lookupField u r₁.fields ≠ lookupField u r₂.fields) →
      getCandidatesBody dateCol cutoff st.table ≠ [] →
      ∃ f, ((archiveTableDataIntended dateCol cutoff retention true st).2).archiveFile = some f ∧
        ((restoreFromArchiveIntended (some f)
            (archiveTableDataIntended dateCol cutoff retention true st).1).2).success = true ∧
        List.Perm
          ((((restoreFromArchiveIntended (some f)
              (archiveTableDataIntended dateCol cutoff retention true st).1).1).table.rows).map
            Row.fields)
          (st.table.rows.map Row.fields) ∧
        ((((restoreFromArchiveIntended (some f)
            (archiveTableDataIntended dateCol cutoff retention true st).1).1).table.rows).map
          Row.id).Nodup) ∧
    (∀ (t : ArchTable) (record : Row),
      insertConflicts t (t.columns.map (fun c => (c, lookupField c record.fields))) = true →
      restoreOne t record = (t, false)) ∧
    (∀ (records : List Row) (t : ArchTable),
      List.IsPrefix t.rows ((restoreRecordsBody records t).1).rows ∧
      ((restoreRecordsBody records t).1).rows.length =
        t.rows.length + (restoreRecordsBody records t).2 ∧
      (restoreRecordsBody records t).2 ≤ records.length) ∧
    (∀ (a : ArchiveFile) (st : ArchState),
      ((restoreFromArchiveIntended (some a) st).2).success = true) := by
  refine ⟨?_, ?_, ?_, fun _ _ => rfl⟩
  · intro dateCol cutoff retention st hnd hcols hwf huniq hc
    cases hcs : getCandidatesBody dateCol cutoff st.table with
    | nil => exact absurd hcs hc
    | cons c0 crest =>
      have harch := archiveIntended_success dateCol cutoff retention st c0 crest hcs
      have hmem := candidates_mem dateCol cutoff st.table (c0 :: crest) hcs
      have hdel := deleteArchivedBody_filter (isCandidate dateCol cutoff) st.table
        (c0 :: crest) hnd hmem
      have hrowsnodup : st.table.rows.Nodup := List.Nodup.of_map Row.id hnd
      have hcandnd : (c0 :: crest).Nodup := by
        rw [← hcs]
        unfold getCandidatesBody
        exact ((sortOn_perm (dateKey dateCol) _).nodup_iff).mpr (hrowsnodup.filter _)
      have hnc : noConflicts
          (deleteArchivedBody ((c0 :: crest).map Row.id) st.table).1 (c0 :: crest) := by
        intro u hu r hr v hv
        have hrmem := (hmem r).mp hr
        have hreb : ((deleteArchivedBody ((c0 :: crest).map Row.id) st.table).1.columns).map
            (fun c => (c, lookupField c r.fields)) = r.fields :=
          rebuild_fields_of_keys st.table.columns r.fields (hwf r hrmem.1) hcols
        rw [hreb] at hv
        constructor
        · intro row hrow
          rw [hdel] at hrow
          obtain ⟨hrowrows, hrowp⟩ := List.mem_filter.mp hrow
          have hner : r ≠ row := by
            intro hrr
            have hpr : isCandidate dateCol cutoff row = true := hrr ▸ hrmem.2
            simp [hpr] at hrowp
          intro hcontra
          rcases huniq u hu r hrmem.1 row hrowrows hner with hnone | hne
          · rw [hv] at hnone
            cases hnone
          · exact hne (hv.trans hcontra.symm)
        · intro r₂ hr₂ hner₂
          have hr₂mem := (hmem r₂).mp hr₂
          have hreb₂ :
              ((deleteArchivedBody ((c0 :: crest).map Row.id) st.table).1.columns).map
                (fun c => (c, lookupField c r₂.fields)) = r₂.fields :=
            rebuild_fields_of_keys st.table.columns r₂.fields (hwf r₂ hr₂mem.1) hcols
          rw [hreb₂]
          intro hcontra
          rcases huniq u hu r hrmem.1 r₂ hr₂mem.1 (fun h => hner₂ h.symm) with hnone | hne
          · rw [hv] at hnone
            cases hnone
          · exact hne (hv.trans hcontra.symm)
      rw [harch]
      refine ⟨⟨st.table.name, (c0 :: crest).length, retention, c0 :: crest⟩, rfl, rfl, ?_, ?_⟩
      · obtain ⟨hn₃, hc₃, hu₃, hcount₃, hfields₃, hnodup₃⟩ :=
          restoreRecordsBody_all_inserted (c0 :: crest)
            (deleteArchivedBody ((c0 :: crest).map Row.id) st.table).1 hcandnd hnc
        show List.Perm
          (((restoreRecordsBody (c0 :: crest)
              (deleteArchivedBody ((c0 :: crest).map Row.id) st.table).1).1.rows).map Row.fields)
          (st.table.rows.map Row.fields)
        rw [hfields₃]
        have hrebuild :
            (c0 :: crest).map (fun r =>
              ((deleteArchivedBody ((c0 :: crest).map Row.id) st.table).1.columns).map
                (fun c => (c, lookupField c r.fields))) =
            (c0 :: crest).map Row.fields := by
          apply List.map_congr_left
          intro x hx
          exact rebuild_fields_of_keys st.table.columns x.fields
            (hwf x ((hmem x).mp hx).1) hcols
        rw [hrebuild, hdel]
        have hperm₁ : List.Perm (c0 :: crest)
            (st.table.rows.filter (isCandidate dateCol cutoff)) := by
          rw [← hcs]
          unfold getCandidatesBody
          exact sortOn_perm _ _
        have hperm₂ := List.Perm.append_left
          ((st.table.rows.filter (fun r => !(isCandidate dateCol cutoff r))).map Row.fields)
          (hperm₁.map Row.fields)
        have hperm₄ : List.Perm
            (st.table.rows.filter (fun r => !(isCandidate dateCol cutoff r)) ++
              st.table.rows.filter (isCandidate dateCol cutoff))
            st.table.rows :=
          List.Perm.trans List.perm_append_comm
            (List.filter_append_perm (isCandidate dateCol cutoff) st.table.rows)
        refine hperm₂.trans ?_
        rw [← List.map_append]
        exact hperm₄.map Row.fields
      · obtain ⟨hn₃, hc₃, hu₃, hcount₃, hfields₃, hnodup₃⟩ :=
          restoreRecordsBody_all_inserted (c0 :: crest)
            (deleteArchivedBody ((c0 :: crest).map Row.id) st.table).1 hcandnd hnc
        show (((restoreRecordsBody (c0 :: crest)
            (deleteArchivedBody ((c0 :: crest).map Row.id) st.table).1).1.rows).map Row.id).Nodup
        apply hnodup₃
        rw [show (deleteArchivedBody ((c0 :: crest).map Row.id) st.table).1.rows =
          st.table.rows.filter (fun r => !(isCandidate dateCol cutoff r)) from hdel]
        exact hnd.sublist ((List.filter_sublist _).map Row.id)
  · intro t record hconf
    rcases restoreOne_cases t record with ⟨_, h⟩ | ⟨hfalse, _⟩
    · exact h
    · rw [hconf] at hfalse
      cases hfalse
  · intro records
    induction records with
    | nil =>
      intro t
      exact ⟨List.prefix_refl _, by simp [restoreRecordsBody], by simp [restoreRecordsBody]⟩
    | cons record rest ih =>
      intro t
      rcases restoreOne_cases t record with ⟨hc, hro⟩ | ⟨hc, hro⟩
      · have hstep : restoreRecordsBody (record :: rest) t = restoreRecordsBody rest t := by
          simp [restoreRecordsBody, hro]
        obtain ⟨ihp, ihl, ihc₂⟩ := ih t
        rw [hstep]
        exact ⟨ihp, ihl, Nat.le_succ_of_le ihc₂⟩
      · have hstep : restoreRecordsBody (record :: rest) t =
            ((restoreRecordsBody rest
              { t with rows := t.rows ++
                [⟨nextId t, t.columns.map (fun c => (c, lookupField c record.fields))⟩] }).1,
              1 + (restoreRecordsBody rest
              { t with rows := t.rows ++
                [⟨nextId t, t.columns.map (fun c => (c, lookupField c record.fields))⟩] }).2) := by
          simp [restoreRecordsBody, hro]
        obtain ⟨ihp, ihl, ihc₂⟩ := ih
          { t with rows := t.rows ++
            [⟨nextId t, t.columns.map (fun c => (c, lookupField c record.fields))⟩] }
        rw [hstep]
        refine ⟨(List.prefix_append t.rows _).trans ihp, ?_, ?_⟩
        · rw [ihl]
          simp only [List.length_append, List.length_cons, List.length_nil]
          omega
        · simp only [List.length_cons]
          omega

/-- C1 (amended) witness: the round trip on the concrete two-row
`weekly_digests` table — whose `date` column is UNIQUE — satisfies every
hypothesis and preserves the non-id column multiset with distinct fresh
ids; and re-inserting a record whose UNIQUE `date` value already exists is
skipped, leaving the table unchanged. -/
theorem c1_roundtrip_modulo_ids_witness :
    ((exDigestsState.table.rows.map Row.id).Nodup ∧
      exDigestsState.table.columns.Nodup ∧
      (∀ r ∈ exDigestsState.table.rows, r.fields.map Prod.fst = exDigestsState.table.columns) ∧
      (∀ u ∈ exDigestsState.table.uniqueCols, ∀ r₁ ∈ exDigestsState.table.rows,
        ∀ r₂ ∈ exDigestsState.table.rows, r₁ ≠ r₂ →
        lookupField u r₁.fields = none ∨
          lookupField u r₁.fields ≠ lookupField u r₂.fields) ∧
      getCandidatesBody "created_at" "2025-01-01" exDigestsState.table ≠ []) ∧
    (∃ f, ((archiveTableDataIntended "created_at" "2025-01-01" 1095 true exDigestsState).2).archiveFile =
        some f ∧
      ((restoreFromArchiveIntended (some f)
          (archiveTableDataIntended "created_at" "2025-01-01" 1095 true exDigestsState).1).2).success =
        true ∧
      List.Perm
        ((((restoreFromArchiveIntended (some f)
            (archiveTableDataIntended "created_at" "2025-01-01" 1095 true exDigestsState).1).1).table.rows).map
          Row.fields)
        (exDigestsState.table.rows.map Row.fields) ∧
      ((((restoreFromArchiveIntended (some f)
          (archiveTableDataIntended "created_at" "2025-01-01" 1095 true exDigestsState).1).1).table.rows).map
        Row.id).Nodup) ∧
    (insertConflicts exDigestsTable
        (exDigestsTable.columns.map (fun c => (c, lookupField c exConflictRecord.fields))) =
      true ∧
      restoreOne exDigestsTable exConflictRecord = (exDigestsTable, false)) :=
  ⟨⟨by decide, by decide, by decide, by decide, by decide⟩,
    c1_roundtrip_modulo_ids.1 "created_at" "2025-01-01" 1095 exDigestsState
      (by decide) (by decide) (by decide) (by decide) (by decide),
    by decide,
    c1_roundtrip_modulo_ids.2.1 exDigestsTable exConflictRecord (by decide)⟩

/-- C5: a backup byte-identical to the live database.  As wired in `src/`,
`verify_backup_integrity` can never report it valid: the schema
fingerprints come back as Python `None` (the zero-argument `get_schema`
callback raises `TypeError` inside `safe_db_operation`), the comparison
step records a "Schema verification failed" error, `data_sample_valid`
stays `None`, and `overall_valid` is `False` with a non-empty error list —
the code contradicts the claim (and its own test, which requires
`overall_valid` on an existing backup).  Under the intended helper
semantics the very same input verifies exactly as the claim states:
`overall_valid = True` with no errors. -/
theorem c5_identical_backup_verification :
    ((verifyBackupIntegrity 100 ⟨true, some exDb⟩ (some exDb)).overallValid = some false ∧
      (verifyBackupIntegrity 100 ⟨true, some exDb⟩ (some exDb)).errors ≠ []) ∧
    ((verifyBackupIntegrityIntended 100 ⟨true, some exDb⟩ (some exDb)).overallValid = some true ∧
      (verifyBackupIntegrityIntended 100 ⟨true, some exDb⟩ (some exDb)).errors = []) := by
  refine ⟨⟨?_, ?_⟩, ?_, ?_⟩ <;> decide

/-!
Component lemmas for the restore coordinator, used to discharge the
case analyses of C3, C7, C8 and C10.
-/

@[simp] theorem createSafetyBackup_history (env : RestoreEnv) (st : RestoreState) :
    (createSafetyBackup env st).1.history = st.history := by
  cases h : st.liveDb <;> cases he : env.safetyCopyOk <;>
    simp [createSafetyBackup, h, he]

@[simp] theorem createSafetyBackup_liveDb (env : RestoreEnv) (st : RestoreState) :
    (createSafetyBackup env st).1.liveDb = st.liveDb := by
  cases h : st.liveDb <;> cases he : env.safetyCopyOk <;>
    simp [createSafetyBackup, h, he]

@[simp] theorem createSafetyBackup_configFiles (env : RestoreEnv) (st : RestoreState) :
    (createSafetyBackup env st).1.configFiles = st.configFiles := by
  cases h : st.liveDb <;> cases he : env.safetyCopyOk <;>
    simp [createSafetyBackup, h, he]

@[simp] theorem createSafetyBackup_logFiles (env : RestoreEnv) (st : RestoreState) :
    (createSafetyBackup env st).1.logFiles = st.logFiles := by
  cases h : st.liveDb <;> cases he : env.safetyCopyOk <;>
    simp [createSafetyBackup, h, he]

@[simp] theorem createSafetyBackup_tempDirs (env : RestoreEnv) (st : RestoreState) :
    (createSafetyBackup env st).1.tempDirs = st.tempDirs := by
  cases h : st.liveDb <;> cases he : env.safetyCopyOk <;>
    simp [createSafetyBackup, h, he]

@[simp] theorem logRestoreOperation_fst (f ty s : String) (n : Option String)
    (st : RestoreState) :
    (logRestoreOperation f ty s n st).1 =
      { st with history := st.history ++ [⟨f, ty, s, n⟩] } := rfl

/-- C10: a confirmation callback that returns `False` makes both
`restore_database` and `restore_full_system` return `False` with the
entire state (live database, safety backups, config, logs,
`restore_history`, temp dirs) untouched and no events emitted. -/
theorem c10_declined_confirmation :
    (∀ (backup : Option DbBackupFile) (env : RestoreEnv) (st : RestoreState),
      restoreDatabase backup (some false) env st = (st, false, [])) ∧
    (∀ (bundle : Option SysBundle) (env : RestoreEnv) (st : RestoreState),
      restoreFullSystem bundle (some false) env st = (st, false, [])) := by
  constructor
  · intro backup env st
    cases backup with
    | none => rfl
    | some b => simp [restoreDatabase]
  · intro bundle env st
    cases bundle with
    | none => rfl
    | some b => cases hb : b.isTarGz <;> simp [restoreFullSystem, hb]

/-- C3 counterexample: calling `restore_database` on a missing backup file
returns `False` without appending any `restore_history` row, refuting
"every invocation, whatever its outcome — including a missing backup file
— appends exactly one row". -/
theorem c3_counterexample : ¬ c3AsStated := by
  intro h
  exact absurd (h.1 none none envAllOk exRestoreState) (by decide)

/-- C3 (amended): an audit row is appended exactly when the operation gets
past its validation and confirmation checks.  `restore_database`: a
missing backup file or a declined confirmation appends nothing; otherwise
exactly one row is appended whether the copy succeeds or fails.
`restore_full_system`: a missing bundle, a non-`.tar.gz` name, a declined
confirmation, a failed extraction or a bundle without a `canary_backup_*`
directory appends nothing; once the copy phase is reached, exactly one row
is appended on success and on failure alike. -/
theorem c3_audit_rows :
    (∀ (confirm : Option Bool) (env : RestoreEnv) (st : RestoreState),
      ((restoreDatabase none confirm env st).1).history = st.history) ∧
    (∀ (b : DbBackupFile) (env : RestoreEnv) (st : RestoreState),
      ((restoreDatabase (some b) (some false) env st).1).history = st.history) ∧
    (∀ (b : DbBackupFile) (confirm : Option Bool) (env : RestoreEnv) (st : RestoreState),
      confirm ≠ some false →
      (((restoreDatabase (some b) confirm env st).1).history).length = st.history.length + 1) ∧
    (∀ (b : SysBundle) (confirm : Option Bool) (env : RestoreEnv) (st : RestoreState),
      b.isTarGz = false ∨ confirm = some false ∨ b.extractOk = false ∨
        (b.topDirs.filter (fun d => strStarts d "canary_backup_")).isEmpty = true →
      ((restoreFullSystem (some b) confirm env st).1).history = st.history) ∧
    (∀ (b : SysBundle) (confirm : Option Bool) (env : RestoreEnv) (st : RestoreState),
      b.isTarGz = true → confirm ≠ some false → b.extractOk = true →
      (b.topDirs.filter (fun d => strStarts d "canary_backup_")).isEmpty = false →
      (((restoreFullSystem (some b) confirm env st).1).history).length =
        st.history.length + 1) := by
  refine ⟨fun _ _ _ => rfl, ?_, ?_, ?_, ?_⟩
  · intro b env st
    simp [restoreDatabase]
  · intro b confirm env st h
    cases hr : env.restoreCopyOk <;>
      simp [restoreDatabase, h, hr]
  · intro b confirm env st h
    rcases h with h | h | h | h
    · simp [restoreFullSystem, h]
    · cases hb : b.isTarGz <;> simp [restoreFullSystem, hb, h]
    · cases hb : b.isTarGz <;>
        by_cases hc : confirm = some false <;>
        simp [restoreFullSystem, hb, hc, h]
    · cases hb : b.isTarGz <;>
        by_cases hc : confirm = some false <;>
        cases he : b.extractOk <;>
        simp [restoreFullSystem, hb, hc, he, h]
  · intro b confirm env st hb hc he hd
    cases hdb : b.dbFile <;> cases hdc : env.dbCopyOk <;>
      rcases hcf : b.configDir with _ | (_ | ⟨cf, cfs⟩) <;>
      cases hcc : env.configCopyOk <;>
      rcases hlg : b.logsDir with _ | (_ | ⟨lf, lfs⟩) <;>
      cases hlc : env.logsCopyOk <;>
      simp [restoreFullSystem, hb, hc, he, hd, hdb, hdc, hcf, hcc, hlg, hlc]

/-- C3 (amended) witness: on the concrete fixtures, a full-system restore
that reaches the copy phase appends exactly one audit row, and a database
restore with a non-declining callback appends exactly one audit row. -/
theorem c3_audit_rows_witness :
    (((none : Option Bool) ≠ some false) ∧
      (((restoreDatabase (some exBackup) none envAllOk exRestoreState).1).history).length =
        exRestoreState.history.length + 1) ∧
    ((exBundle.isTarGz = true ∧ ((none : Option Bool) ≠ some false) ∧
        exBundle.extractOk = true ∧
        (exBundle.topDirs.filter (fun d => strStarts d "canary_backup_")).isEmpty = false) ∧
      (((restoreFullSystem (some exBundle) none envAllOk exRestoreState).1).history).length =
        exRestoreState.history.length + 1) :=
  ⟨⟨by decide, c3_audit_rows.2.2.1 exBackup none envAllOk exRestoreState (by decide)⟩,
    ⟨by decide, by decide, by decide, by decide⟩,
    c3_audit_rows.2.2.2.2 exBundle none envAllOk exRestoreState
      (by decide) (by decide) (by decide) (by decide)⟩

/-- C7 counterexample: when the safety-backup copy fails on a pre-existing
target, `restore_database` overwrites the live database anyway — the event
trace contains the destructive write with no preceding safety-backup
creation, refuting "never overwrites unless a safety backup has first been
successfully created". -/
theorem c7_counterexample : ¬ c7AsStated := by
  intro h
  exact absurd
    (h (some exBackup) none envNoSafety exRestoreState (by decide) (by decide))
    (by decide)

/-- C7 (amended): `restore_database` attempts the safety backup before the
destructive write.  When the safety copy succeeds, the claim's ordering
holds: any destructive write on a pre-existing target is preceded in the
trace by the safety-backup creation.  But a failed safety copy does not
abort the restore: with the copy failing on a pre-existing target, the
live database is still overwritten and no safety backup exists — so a
missing target is not the only case without a safety backup. -/
theorem c7_safety_backup_order :
    (∀ (backup : Option DbBackupFile) (confirm : Option Bool) (env : RestoreEnv)
        (st : RestoreState),
      env.safetyCopyOk = true →
      REvent.liveDbWritten ∈ (restoreDatabase backup confirm env st).2.2 →
      st.liveDb.isSome = true →
      REvent.safetyBackupCreated ∈
        ((restoreDatabase backup confirm env st).2.2).takeWhile
          (fun e => e ≠ REvent.liveDbWritten)) ∧
    (∀ (b : DbBackupFile) (confirm : Option Bool) (env : RestoreEnv) (st : RestoreState),
      env.safetyCopyOk = false → env.restoreCopyOk = true → st.liveDb.isSome = true →
      confirm ≠ some false →
      (restoreDatabase (some b) confirm env st).1.liveDb = some b.content ∧
      (restoreDatabase (some b) confirm env st).1.safetyBackups = st.safetyBackups) := by
  constructor
  · intro backup confirm env st hsok hmem hsome
    cases backup with
    | none => simp [restoreDatabase] at hmem
    | some b =>
      by_cases hc : confirm = some false
      · simp [restoreDatabase, hc] at hmem
      · cases hl : st.liveDb with
        | none => simp [hl] at hsome
        | some l =>
          cases hr : env.restoreCopyOk <;>
            simp [restoreDatabase, hc, hr, createSafetyBackup, hl, hsok] at hmem ⊢
  · intro b confirm env st hs hr hsome hc
    cases hl : st.liveDb with
    | none => simp [hl] at hsome
    | some l =>
      constructor <;> simp [restoreDatabase, hc, hr, createSafetyBackup, hl, hs]

/-- C7 (amended) witness: with a succeeding safety copy on the concrete
pre-existing target, the destructive write is preceded by the
safety-backup creation in the trace. -/
theorem c7_safety_backup_order_witness :
    (envAllOk.safetyCopyOk = true ∧
      REvent.liveDbWritten ∈ (restoreDatabase (some exBackup) none envAllOk exRestoreState).2.2 ∧
      exRestoreState.liveDb.isSome = true) ∧
    REvent.safetyBackupCreated ∈
      ((restoreDatabase (some exBackup) none envAllOk exRestoreState).2.2).takeWhile
        (fun e => e ≠ REvent.liveDbWritten) :=
  ⟨⟨by decide, by decide, by decide⟩,
    c7_safety_backup_order.1 (some exBackup) none envAllOk exRestoreState
      (by decide) (by decide) (by decide)⟩

/-- Behaviour of `restore_full_system` on every path that fails before the
copy phase (bad extension, declined confirmation, failed extraction, no
`canary_backup_*` directory): it returns `False`, removes any temporary
directory it made, and leaves the live database, config and log trees
untouched. -/
theorem restoreFullSystem_prevalidation (b : SysBundle) (confirm : Option Bool)
    (env : RestoreEnv) (st : RestoreState)
    (h : b.isTarGz = false ∨ confirm = some false ∨ b.extractOk = false ∨
      (b.topDirs.filter (fun d => strStarts d "canary_backup_")).isEmpty = true) :
    (restoreFullSystem (some b) confirm env st).2.1 = false ∧
    (restoreFullSystem (some b) confirm env st).1.tempDirs = st.tempDirs ∧
    (restoreFullSystem (some b) confirm env st).1.liveDb = st.liveDb ∧
    (restoreFullSystem (some b) confirm env st).1.configFiles = st.configFiles ∧
    (restoreFullSystem (some b) confirm env st).1.logFiles = st.logFiles := by
  rcases h with h | h | h | h
  · simp [restoreFullSystem, h]
  · cases hb : b.isTarGz <;> simp [restoreFullSystem, hb, h]
  · cases hb : b.isTarGz <;>
      by_cases hc : confirm = some false <;>
      simp [restoreFullSystem, hb, hc, h]
  · cases hb : b.isTarGz <;>
      by_cases hc : confirm = some false <;>
      cases he : b.extractOk <;>
      simp [restoreFullSystem, hb, hc, he, h]

/-- C8 counterexample: a bundle that passes validation but whose config
copy raises mid-phase leaves the temporary extraction directory behind and
the live database already overwritten while the restore reports failure —
refuting both "the temporary directory is removed on every exit path" and
"a corrupt or partial bundle never partially overwrites live state". -/
theorem c8_counterexample :
    ¬ c8AsStated ∧
    (restoreFullSystem (some exBundle) none envConfigFail exRestoreState).2.1 = false ∧
    (restoreFullSystem (some exBundle) none envConfigFail exRestoreState).1.tempDirs = 1 ∧
    (restoreFullSystem (some exBundle) none envConfigFail exRestoreState).1.liveDb =
      some "bundledb" ∧
    (restoreFullSystem (some exBundle) none envConfigFail exRestoreState).1.configFiles =
      exRestoreState.configFiles := by
  refine ⟨?_, by decide, by decide, by decide, by decide⟩
  intro h
  exact absurd (h (some exBundle) none envConfigFail exRestoreState).1 (by decide)

set_option maxHeartbeats 2000000 in
/-- C8 (amended): extraction is staged through the temporary directory and
validated before any live path is written — every pre-copy-phase failure
leaves live state untouched and removes the temporary directory, and the
success path removes it too; but an exception during the copy-over phase
(after validation) returns `False` leaving the temporary directory behind
(and possibly live state partially overwritten). -/
theorem c8_staged_extraction :
    (∀ (b : SysBundle) (confirm : Option Bool) (env : RestoreEnv) (st : RestoreState),
      b.isTarGz = false ∨ confirm = some false ∨ b.extractOk = false ∨
        (b.topDirs.filter (fun d => strStarts d "canary_backup_")).isEmpty = true →
      (restoreFullSystem (some b) confirm env st).2.1 = false ∧
      (restoreFullSystem (some b) confirm env st).1.tempDirs = st.tempDirs ∧
      (restoreFullSystem (some b) confirm env st).1.liveDb = st.liveDb ∧
      (restoreFullSystem (some b) confirm env st).1.configFiles = st.configFiles ∧
      (restoreFullSystem (some b) confirm env st).1.logFiles = st.logFiles) ∧
    (∀ (b : SysBundle) (confirm : Option Bool) (env : RestoreEnv) (st : RestoreState),
      (restoreFullSystem (some b) confirm env st).2.1 = true →
      (restoreFullSystem (some b) confirm env st).1.tempDirs = st.tempDirs) ∧
    (∀ (b : SysBundle) (confirm : Option Bool) (env : RestoreEnv) (st : RestoreState),
      b.isTarGz = true → confirm ≠ some false → b.extractOk = true →
      (b.topDirs.filter (fun d => strStarts d "canary_backup_")).isEmpty = false →
      (restoreFullSystem (some b) confirm env st).2.1 = false →
      (restoreFullSystem (some b) confirm env st).1.tempDirs = st.tempDirs + 1) := by
  refine ⟨restoreFullSystem_prevalidation, ?_, ?_⟩
  · intro b confirm env st hok
    cases hb : b.isTarGz with
    | false =>
      rw [(restoreFullSystem_prevalidation b confirm env st (Or.inl hb)).1] at hok
      cases hok
    | true =>
      by_cases hc : confirm = some false
      · rw [(restoreFullSystem_prevalidation b confirm env st (Or.inr (Or.inl hc))).1] at hok
        cases hok
      cases he : b.extractOk with
      | false =>
        rw [(restoreFullSystem_prevalidation b confirm env st
          (Or.inr (Or.inr (Or.inl he)))).1] at hok
        cases hok
      | true =>
        cases hd : (b.topDirs.filter (fun d => strStarts d "canary_backup_")).isEmpty with
        | true =>
          rw [(restoreFullSystem_prevalidation b confirm env st
            (Or.inr (Or.inr (Or.inr hd)))).1] at hok
          cases hok
        | false =>
          cases hdb : b.dbFile <;> cases hdc : env.dbCopyOk <;>
            rcases hcf : b.configDir with _ | (_ | ⟨cf, cfs⟩) <;>
            cases hcc : env.configCopyOk <;>
            rcases hlg : b.logsDir with _ | (_ | ⟨lf, lfs⟩) <;>
            cases hlc : env.logsCopyOk <;>
            simp [restoreFullSystem, hb, hc, he, hd, hdb, hdc, hcf, hcc, hlg, hlc] at hok ⊢
  · intro b confirm env st hb hc he hd hfail
    cases hdb : b.dbFile <;> cases hdc : env.dbCopyOk <;>
      rcases hcf : b.configDir with _ | (_ | ⟨cf, cfs⟩) <;>
      cases hcc : env.configCopyOk <;>
      rcases hlg : b.logsDir with _ | (_ | ⟨lf, lfs⟩) <;>
      cases hlc : env.logsCopyOk <;>
      simp [restoreFullSystem, hb, hc, he, hd, hdb, hdc, hcf, hcc, hlg, hlc] at hfail ⊢

/-- C8 (amended) witness: on the concrete bundle, a failed extraction
leaves live state untouched with the temporary directory removed, and the
config-copy exception leaves the temporary directory behind. -/
theorem c8_staged_extraction_witness :
    ((⟨"bundle.tar.gz", true, false, ["canary_backup_20250101"], some "bundledb",
        some [("config.yaml", "newcfg")], none⟩ : SysBundle).extractOk = false ∧
      (restoreFullSystem
        (some ⟨"bundle.tar.gz", true, false, ["canary_backup_20250101"], some "bundledb",
          some [("config.yaml", "newcfg")], none⟩) none envAllOk exRestoreState).1.liveDb =
        exRestoreState.liveDb ∧
      (restoreFullSystem
        (some ⟨"bundle.tar.gz", true, false, ["canary_backup_20250101"], some "bundledb",
          some [("config.yaml", "newcfg")], none⟩) none envAllOk exRestoreState).1.tempDirs =
        exRestoreState.tempDirs) ∧
    ((restoreFullSystem (some exBundle) none envConfigFail exRestoreState).2.1 = false ∧
      (restoreFullSystem (some exBundle) none envConfigFail exRestoreState).1.tempDirs =
        exRestoreState.tempDirs + 1) :=
  ⟨⟨by decide,
      ((c8_staged_extraction.1
        ⟨"bundle.tar.gz", true, false, ["canary_backup_20250101"], some "bundledb",
          some [("config.yaml", "newcfg")], none⟩ none envAllOk exRestoreState
        (Or.inr (Or.inr (Or.inl (by decide))))).2.2.1),
      ((c8_staged_extraction.1
        ⟨"bundle.tar.gz", true, false, ["canary_backup_20250101"], some "bundledb",
          some [("config.yaml", "newcfg")], none⟩ none envAllOk exRestoreState
        (Or.inr (Or.inr (Or.inl (by decide))))).2.1)⟩,
    by decide,
    c8_staged_extraction.2.2 exBundle none envConfigFail exRestoreState
      (by decide) (by decide) (by decide) (by decide) (by decide)⟩

/-!
Lemmas for the migration engine.
-/

theorem pyStrLt_irrefl (a : String) : pyStrLt a a = false := by
  simp [pyStrLt]

theorem pyStrLt_trans {a b c : String} (h₁ : pyStrLt a b = true)
    (h₂ : pyStrLt b c = true) : pyStrLt a c = true := by
  simp only [pyStrLt, decide_eq_true_eq] at h₁ h₂ ⊢
  exact lt_trans h₁ h₂

theorem sqlTextMax_ne_none (l : List String) (h : l ≠ []) :
    ∃ v, sqlTextMax l = some v := by
  cases l with
  | nil => exact absurd rfl h
  | cons x xs => cases h₂ : sqlTextMax xs <;> simp [sqlTextMax, h₂]

theorem sqlTextMax_mem (l : List String) :
    ∀ v, sqlTextMax l = some v → v ∈ l := by
  induction l with
  | nil => intro v h; cases h
  | cons x xs ih =>
    intro v h
    unfold sqlTextMax at h
    cases hxs : sqlTextMax xs with
    | none =>
      rw [hxs] at h
      injection h with hv
      exact hv ▸ List.mem_cons_self x xs
    | some w =>
      rw [hxs] at h
      injection h with hv
      cases hc : pyStrLt w x with
      | true =>
        rw [hc] at hv
        simp at hv
        subst hv
        exact List.mem_cons_self _ _
      | false =>
        rw [hc] at hv
        simp at hv
        subst hv
        exact List.mem_cons_of_mem x (ih w hxs)

theorem sqlTextMax_not_lt (l : List String) :
    ∀ v, sqlTextMax l = some v → ∀ u ∈ l, pyStrLt v u = false := by
  induction l with
  | nil => intro v h; cases h
  | cons x xs ih =>
    intro v h u hu
    unfold sqlTextMax at h
    cases hxs : sqlTextMax xs with
    | none =>
      rw [hxs] at h
      injection h with hv
      have hxsnil : xs = [] := by
        cases xs with
        | nil => rfl
        | cons y ys => cases h₂ : sqlTextMax ys <;> simp [sqlTextMax, h₂] at hxs
      subst hxsnil
      rcases List.mem_cons.mp hu with hux | hux
      · subst hux; exact hv ▸ pyStrLt_irrefl u
      · cases hux
    | some w =>
      rw [hxs] at h
      injection h with hv
      rcases List.mem_cons.mp hu with hux | hux
      · subst hux
        cases hc : pyStrLt w u with
        | true =>
          rw [hc] at hv
          simp at hv
          subst hv
          exact pyStrLt_irrefl _
        | false =>
          rw [hc] at hv
          simp at hv
          subst hv
          exact hc
      · have hwu := ih w hxs u hux
        cases hc : pyStrLt w x with
        | true =>
          rw [hc] at hv
          simp at hv
          subst hv
          cases hxu : pyStrLt x u with
          | false => rfl
          | true =>
            rw [pyStrLt_trans hc hxu] at hwu
            cases hwu
        | false =>
          rw [hc] at hv
          simp at hv
          subst hv
          exact hwu

theorem sqlIntMax_ne_none (l : List Int) (h : l ≠ []) :
    ∃ v, sqlIntMax l = some v := by
  cases l with
  | nil => exact absurd rfl h
  | cons x xs => cases h₂ : sqlIntMax xs <;> simp [sqlIntMax, h₂]

theorem sqlIntMax_mem (l : List Int) :
    ∀ v, sqlIntMax l = some v → v ∈ l := by
  induction l with
  | nil => intro v h; cases h
  | cons x xs ih =>
    intro v h
    unfold sqlIntMax at h
    cases hxs : sqlIntMax xs with
    | none =>
      rw [hxs] at h
      injection h with hv
      subst hv
      exact List.mem_cons_self _ _
    | some w =>
      rw [hxs] at h
      injection h with hv
      subst hv
      rcases max_choice x w with hm | hm
      · rw [hm]
        exact List.mem_cons_self _ _
      · rw [hm]
        exact List.mem_cons_of_mem x (ih w hxs)

theorem sqlIntMax_ge (l : List Int) :
    ∀ v, sqlIntMax l = some v → ∀ u ∈ l, u ≤ v := by
  induction l with
  | nil => intro v h; cases h
  | cons x xs ih =>
    intro v h u hu
    unfold sqlIntMax at h
    cases hxs : sqlIntMax xs with
    | none =>
      rw [hxs] at h
      injection h with hv
      subst hv
      have hxsnil : xs = [] := by
        cases xs with
        | nil => rfl
        | cons y ys => cases h₂ : sqlIntMax ys <;> simp [sqlIntMax, h₂] at hxs
      subst hxsnil
      rcases List.mem_cons.mp hu with hux | hux
      · exact hux.le
      · cases hux
    | some w =>
      rw [hxs] at h
      injection h with hv
      subst hv
      rcases List.mem_cons.mp hu with hux | hux
      · exact hux ▸ le_max_left x w
      · exact le_trans (ih w hxs u hux) (le_max_right x w)

/-- C6 counterexample: `MigrationManager.get_current_version` orders the
version strings by SQL BINARY (lexicographic) text order, not
semantic-version order: with `1.9.0` and `1.10.0` both applied, it returns
`"1.9.0"` while the highest applied semantic version is `"1.10.0"`. -/
theorem c6_counterexample :
    ¬ c6AsStated ∧
    getCurrentVersion (⟨[("1.10.0", "a"), ("1.9.0", "b")], ()⟩ : MigDb Unit) = "1.9.0" ∧
    (semverMax ["1.10.0", "1.9.0"]).getD "0.0.0" = "1.10.0" := by
  refine ⟨?_, by decide, by decide⟩
  intro h
  exact absurd (h.1 [("1.10.0", "a"), ("1.9.0", "b")]) (by decide)

/-- C6 (amended): `get_current_version` returns the sentinel (`"0.0.0"` /
`0`) when nothing is applied, and otherwise the greatest applied version —
greatest in string-lexicographic order for `MigrationManager` (which
coincides with semantic-version order only while lexicographic and numeric
order agree, as for the repository's own `1.0.0`/`1.1.0`), and the true
numeric maximum for the integer-versioned `DatabaseMigrationSystem`. -/
theorem c6_current_version :
    (∀ (σ₀ : Type) (s : σ₀), getCurrentVersion (⟨[], s⟩ : MigDb σ₀) = "0.0.0") ∧
    (∀ (σ₀ : Type) (db : MigDb σ₀), db.applied ≠ [] →
      getCurrentVersion db ∈ db.applied.map (·.1) ∧
      ∀ v ∈ db.applied.map (·.1), pyStrLt (getCurrentVersion db) v = false) ∧
    (∀ (σ₀ : Type) (s : σ₀), dmsGetCurrentVersion (⟨[], s⟩ : DmsDb σ₀) = 0) ∧
    (∀ (σ₀ : Type) (db : DmsDb σ₀), db.applied ≠ [] →
      dmsGetCurrentVersion db ∈ db.applied.map (·.1) ∧
      ∀ v ∈ db.applied.map (·.1), v ≤ dmsGetCurrentVersion db) := by
  refine ⟨fun _ _ => rfl, ?_, fun _ _ => rfl, ?_⟩
  · intro σ₀ db hne
    have hmapne : db.applied.map (·.1) ≠ ([] : List String) := by
      simpa using hne
    obtain ⟨v, hv⟩ := sqlTextMax_ne_none _ hmapne
    unfold getCurrentVersion
    rw [hv]
    exact ⟨sqlTextMax_mem _ v hv, sqlTextMax_not_lt _ v hv⟩
  · intro σ₀ db hne
    have hmapne : db.applied.map (·.1) ≠ ([] : List Int) := by
      simpa using hne
    obtain ⟨v, hv⟩ := sqlIntMax_ne_none _ hmapne
    unfold dmsGetCurrentVersion
    rw [hv]
    exact ⟨sqlIntMax_mem _ v hv, sqlIntMax_ge _ v hv⟩

/-- C6 (amended) witness: on the repository's own ascending versions the
string maximum is `"1.1.0"`, and on integer versions the maximum is 2. -/
theorem c6_current_version_witness :
    (([("1.0.0", "d1"), ("1.1.0", "d2")] : List (String × String)) ≠ [] ∧
      getCurrentVersion (⟨[("1.0.0", "d1"), ("1.1.0", "d2")], ()⟩ : MigDb Unit) ∈
        ([("1.0.0", "d1"), ("1.1.0", "d2")] : List (String × String)).map (·.1) ∧
      ∀ v ∈ ([("1.0.0", "d1"), ("1.1.0", "d2")] : List (String × String)).map (·.1),
        pyStrLt (getCurrentVersion (⟨[("1.0.0", "d1"), ("1.1.0", "d2")], ()⟩ : MigDb Unit)) v =
          false) ∧
    (([(1, "a", "b"), (2, "c", "d")] : List (Int × String × String)) ≠ [] ∧
      dmsGetCurrentVersion (⟨[(1, "a", "b"), (2, "c", "d")], ()⟩ : DmsDb Unit) ∈
        ([(1, "a", "b"), (2, "c", "d")] : List (Int × String × String)).map (·.1) ∧
      ∀ v ∈ ([(1, "a", "b"), (2, "c", "d")] : List (Int × String × String)).map (·.1),
        v ≤ dmsGetCurrentVersion (⟨[(1, "a", "b"), (2, "c", "d")], ()⟩ : DmsDb Unit)) :=
  ⟨⟨by decide,
      (c6_current_version.2.1 Unit ⟨[("1.0.0", "d1"), ("1.1.0", "d2")], ()⟩ (by decide)).1,
      (c6_current_version.2.1 Unit ⟨[("1.0.0", "d1"), ("1.1.0", "d2")], ()⟩ (by decide)).2⟩,
    ⟨by decide,
      (c6_current_version.2.2.2 Unit ⟨[(1, "a", "b"), (2, "c", "d")], ()⟩ (by decide)).1,
      (c6_current_version.2.2.2 Unit ⟨[(1, "a", "b"), (2, "c", "d")], ()⟩ (by decide)).2⟩⟩

/-- C9 counterexample: `DatabaseMigrationSystem.rollback` — whose
migrations define no down SQL at all — does not fail with a
missing-rollback condition: rolling back from version 1 to version 0
deletes the tracking row while the schema stays as it was, refuting "fails
when down_sql is absent, otherwise executes the down-statements". -/
theorem c9_counterexample :
    ¬ c9AsStated ∧
    (dmsRollback 0 (⟨[(1, "initial_schema", "d")], ()⟩ : DmsDb Unit)).1.applied = [] ∧
    (dmsRollback 0 (⟨[(1, "initial_schema", "d")], ()⟩ : DmsDb Unit)).2 = true := by
  refine ⟨?_, by decide, by decide⟩
  intro h
  exact absurd (h.2 0 ⟨[(1, "initial_schema", "d")], ()⟩) (by decide)

/-- C9 (amended): `MigrationManager.rollback_migration` behaves as the
claim states — an unknown version or an absent/empty `down_sql` fails with
the database untouched, and otherwise the down-statements and the tracking
delete happen in one transaction (failure leaves everything unchanged,
success yields exactly the down-run schema with the version's row
removed).  The `DatabaseMigrationSystem.rollback` variant instead refuses
only when `target ≥ current`, and otherwise deletes every tracking row
above the target without reverting the schema. -/
theorem c9_rollback :
    (∀ (σ₀ : Type) (exec : String → σ₀ → Option σ₀) (defined : List Migration)
        (v : String) (db : MigDb σ₀),
      defined.find? (fun m₂ => m₂.version = v) = none →
      rollbackMigration exec defined v db = (db, false)) ∧
    (∀ (σ₀ : Type) (exec : String → σ₀ → Option σ₀) (defined : List Migration)
        (v : String) (db : MigDb σ₀) (m : Migration),
      defined.find? (fun m₂ => m₂.version = v) = some m → m.downSql = "" →
      rollbackMigration exec defined v db = (db, false)) ∧
    (∀ (σ₀ : Type) (exec : String → σ₀ → Option σ₀) (defined : List Migration)
        (v : String) (db : MigDb σ₀) (m : Migration),
      defined.find? (fun m₂ => m₂.version = v) = some m → m.downSql ≠ "" →
      ((rollbackMigration exec defined v db).2 = false →
        (rollbackMigration exec defined v db).1 = db) ∧
      ((rollbackMigration exec defined v db).2 = true →
        ∃ s₂, runStatements exec (splitStatements m.downSql) db.schema = some s₂ ∧
          (rollbackMigration exec defined v db).1 =
            ⟨db.applied.filter (fun p => p.1 ≠ v), s₂⟩)) ∧
    (∀ (σ₀ : Type) (target : Int) (db : DmsDb σ₀),
      (dmsGetCurrentVersion db ≤ target → dmsRollback target db = (db, false)) ∧
      (target < dmsGetCurrentVersion db →
        (dmsRollback target db).1.schema = db.schema ∧
        (dmsRollback target db).1.applied = db.applied.filter (fun r => r.1 ≤ target) ∧
        (dmsRollback target db).2 = true)) := by
  refine ⟨?_, ?_, ?_, ?_⟩
  · intro σ₀ exec defined v db hfind
    simp [rollbackMigration, hfind]
  · intro σ₀ exec defined v db m hfind hdown
    simp [rollbackMigration, hfind, hdown]
  · intro σ₀ exec defined v db m hfind hdown
    cases hrun : runStatements exec (splitStatements m.downSql) db.schema with
    | none =>
      constructor
      · intro _
        simp [rollbackMigration, hfind, hdown, functionsSafeDbOperation, hrun]
      · intro htrue
        simp [rollbackMigration, hfind, hdown, functionsSafeDbOperation, hrun] at htrue
    | some s₂ =>
      constructor
      · intro hfalse
        simp [rollbackMigration, hfind, hdown, functionsSafeDbOperation, hrun] at hfalse
      · intro _
        refine ⟨s₂, rfl, ?_⟩
        simp [rollbackMigration, hfind, hdown, functionsSafeDbOperation, hrun]
  · intro σ₀ target db
    constructor
    · intro hle
      simp [dmsRollback, hle]
    · intro hlt
      have hnle : ¬ (dmsGetCurrentVersion db ≤ target) := not_le.mpr hlt
      refine ⟨?_, ?_, ?_⟩ <;> simp [dmsRollback, hnle]

/-- C9 (amended) witness: concretely, rolling back the migration without
down SQL fails leaving the database unchanged, and the built-in variant's
rollback from current version 1 to target 0 deletes the tracking row while
keeping the schema. -/
theorem c9_rollback_witness :
    (([exMig1].find? (fun m₂ => m₂.version = "1.0.0") = some exMig1 ∧
        exMig1.downSql = "") ∧
      rollbackMigration toyExec [exMig1] "1.0.0" exMigDb = (exMigDb, false)) ∧
    ((0 : Int) < dmsGetCurrentVersion (⟨[(1, "n", "d")], ()⟩ : DmsDb Unit) ∧
      (dmsRollback 0 (⟨[(1, "n", "d")], ()⟩ : DmsDb Unit)).1.schema = () ∧
      (dmsRollback 0 (⟨[(1, "n", "d")], ()⟩ : DmsDb Unit)).1.applied =
        ([(1, "n", "d")] : List (Int × String × String)).filter (fun r => r.1 ≤ 0)) :=
  ⟨⟨⟨by decide, by decide⟩,
      c9_rollback.2.1 (List String) toyExec [exMig1] "1.0.0" exMigDb exMig1
        (by decide) (by decide)⟩,
    by decide,
    ((c9_rollback.2.2.2 Unit 0 ⟨[(1, "n", "d")], ()⟩).2 (by decide)).1,
    ((c9_rollback.2.2.2 Unit 0 ⟨[(1, "n", "d")], ()⟩).2 (by decide)).2.1⟩

end Canary
